import Mathlib

/-!
Verification development for the enhanced AGV simulation.

Shallow embedding of the repository's Python modules:
  models/node.py, models/battery_system.py, models/agv.py,
  models/enhanced_agv.py, models/order.py, models/scheduler.py,
  models/task_scheduler.py, algorithms/path_planner.py.

Conventions of the embedding:
- Python floats are modelled as exact rationals; decimal literals such as
  0.8 become the rational 4/5.
- Wall-clock reads (time.time()) are modelled by an explicit `now` / elapsed
  time parameter passed to each operation that reads the clock.
- Random draws are modelled by explicit draw parameters (an index for
  random.choice, an inverse-CDF position for random.choices, the drawn
  value for random.uniform).
- Presentation-only state (status strings, colours, angles computed with
  atan2, drawing code) is omitted: no verified claim reads it.
- Real-valued quantities produced by math.sqrt (Euclidean distances, the
  A* heuristic) are threaded as function parameters, since they are in
  general irrational; where a theorem depends on the distance actually
  being Euclidean, a hypothesis pins the parameter down by its square.
- Python dicts are modelled as association lists preserving insertion
  order, Python sets of ids as `Finset ℕ`.
- Unbounded while-loops are modelled with an explicit fuel parameter that
  bounds the number of iterations; each theorem proved about such a loop
  holds for every fuel value, and concrete executions are run with enough
  fuel to reach the loop's genuine exit.
-/

namespace AGVSim

abbrev NodeId := String

abbrev AgvId := ℕ

/-- Association list lookup (Python `dict.get`). -/
def getA {α : Type} (l : List (NodeId × α)) (k : NodeId) : Option α :=
  match l with
  | [] => none
  | (k', v) :: rest => if k' = k then some v else getA rest k

/-- Association list store (Python `d[k] = v`): overwrite the first binding
of `k`, or append a new binding. -/
def setA {α : Type} (l : List (NodeId × α)) (k : NodeId) (v : α) : List (NodeId × α) :=
  match l with
  | [] => [(k, v)]
  | (k', v') :: rest => if k' = k then (k, v) :: rest else (k', v') :: setA rest k v

/-- Association list delete (Python `d.pop(k)`), first binding only. -/
def delA {α : Type} (l : List (NodeId × α)) (k : NodeId) : List (NodeId × α) :=
  match l with
  | [] => []
  | (k', v') :: rest => if k' = k then rest else (k', v') :: delA rest k

/-- Association list over AGV ids. -/
def getN {α : Type} (l : List (AgvId × α)) (k : AgvId) : Option α :=
  match l with
  | [] => none
  | (k', v) :: rest => if k' = k then some v else getN rest k

def setN {α : Type} (l : List (AgvId × α)) (k : AgvId) (v : α) : List (AgvId × α) :=
  match l with
  | [] => [(k, v)]
  | (k', v') :: rest => if k' = k then (k, v) :: rest else (k', v') :: setN rest k v

def delN {α : Type} (l : List (AgvId × α)) (k : AgvId) : List (AgvId × α) :=
  match l with
  | [] => []
  | (k', v') :: rest => if k' = k then rest else (k', v') :: delN rest k

/-- Map node (src/models/node.py, class Node). Rendering state (size,
colours) is omitted; `neighbors` maps a neighbor id to the edge distance. -/
structure Node where
  id : NodeId
  x : ℚ
  y : ℚ
  node_type : String
  connections : List NodeId
  neighbors : List (NodeId × ℚ)
  occupied_by : Option AgvId
  reserved_by : Option AgvId
  reservation_time : ℤ
deriving DecidableEq, Repr

/-- A fresh node as built by Node.__init__ (no connections, unoccupied). -/
def Node.init (id : NodeId) (x y : ℚ) (node_type : String) : Node :=
  { id := id, x := x, y := y, node_type := node_type, connections := []
    neighbors := [], occupied_by := none, reserved_by := none, reservation_time := 0 }

/-- The node map held by the simulation (Python dict id → Node, insertion
ordered). -/
abbrev NodeMap := List (NodeId × Node)

def lookupNode (nodes : NodeMap) (id : NodeId) : Option Node :=
  getA nodes id

def nodeIds (nodes : NodeMap) : List NodeId :=
  nodes.map Prod.fst

/-!
## Battery subsystem (src/models/battery_system.py)
-/

/-- BatterySystem (src/models/battery_system.py, lines 24-284).
`last_update_time` is replaced by passing the elapsed time to `update`;
`charging_start_time` is presentation/statistics only and omitted. -/
structure BatterySystem where
  capacity : ℚ
  current_charge : ℚ
  discharge_rate_moving : ℚ
  discharge_rate_idle : ℚ
  discharge_rate_carrying : ℚ
  charge_rate : ℚ
  critical_threshold : ℚ
  low_threshold : ℚ
  medium_threshold : ℚ
  high_threshold : ℚ
  is_charging : Bool
  total_consumed : ℚ
  total_charged : ℚ
  charging_cycles : ℕ
  low_battery_warned : Bool
  critical_battery_warned : Bool
deriving DecidableEq, Repr

/-- BatterySystem.__init__(capacity, initial_charge). -/
def BatterySystem.init (capacity initial_charge : ℚ) : BatterySystem :=
  { capacity := capacity
    current_charge := min initial_charge capacity
    discharge_rate_moving := 4/5
    discharge_rate_idle := 1/50
    discharge_rate_carrying := 6/5
    charge_rate := 8
    critical_threshold := 15
    low_threshold := 30
    medium_threshold := 60
    high_threshold := 90
    is_charging := false
    total_consumed := 0
    total_charged := 0
    charging_cycles := 0
    low_battery_warned := false
    critical_battery_warned := false }

/-- BatterySystem._update_discharge(time_delta, is_moving, is_carrying_cargo). -/
def BatterySystem.updateDischarge (b : BatterySystem) (time_delta : ℚ)
    (is_moving is_carrying_cargo : Bool) : BatterySystem :=
  if b.current_charge ≤ 0 then b
  else
    let discharge_rate :=
      if is_moving then
        if is_carrying_cargo then b.discharge_rate_moving + b.discharge_rate_carrying
        else b.discharge_rate_moving
      else b.discharge_rate_idle
    let consumption := discharge_rate * time_delta
    { b with current_charge := max 0 (b.current_charge - consumption)
             total_consumed := b.total_consumed + consumption }

/-- BatterySystem._update_charging(time_delta). -/
def BatterySystem.updateCharging (b : BatterySystem) (time_delta : ℚ) : BatterySystem :=
  if b.current_charge ≥ b.capacity then
    { b with is_charging := false }
  else
    let charge_amount := b.charge_rate * time_delta
    let new_charge := min b.capacity (b.current_charge + charge_amount)
    { b with current_charge := new_charge
             total_charged := b.total_charged + (new_charge - b.current_charge) }

/-- BatterySystem._update_warning_status(). -/
def BatterySystem.updateWarningStatus (b : BatterySystem) : BatterySystem :=
  let b :=
    if b.current_charge ≤ b.low_threshold ∧ ¬b.low_battery_warned then
      { b with low_battery_warned := true }
    else if b.current_charge > b.low_threshold then
      { b with low_battery_warned := false }
    else b
  if b.current_charge ≤ b.critical_threshold ∧ ¬b.critical_battery_warned then
    { b with critical_battery_warned := true }
  else if b.current_charge > b.critical_threshold then
    { b with critical_battery_warned := false }
  else b

/-- BatterySystem.update(is_moving, is_carrying_cargo); `time_delta` is the
elapsed wall-clock time since the previous call. -/
def BatterySystem.update (b : BatterySystem) (time_delta : ℚ)
    (is_moving is_carrying_cargo : Bool) : BatterySystem :=
  if time_delta ≤ 0 then b
  else
    let b :=
      if b.is_charging then b.updateCharging time_delta
      else b.updateDischarge time_delta is_moving is_carrying_cargo
    b.updateWarningStatus

/-- The battery-state invariant: charge within [0, capacity] and the
constructor's rates non-negative (they are the fixed literals 0.8, 0.02,
1.2 and 8.0 in the source and are never reassigned). -/
def BatteryOk (b : BatterySystem) : Prop :=
  0 ≤ b.current_charge ∧ b.current_charge ≤ b.capacity ∧
    0 ≤ b.discharge_rate_moving ∧ 0 ≤ b.discharge_rate_idle ∧
    0 ≤ b.discharge_rate_carrying ∧ 0 ≤ b.charge_rate

def BatterySystem.can_move (b : BatterySystem) : Bool :=
  decide (b.current_charge > 0)

def BatterySystem.needs_charging (b : BatterySystem) : Bool :=
  decide (b.current_charge ≤ b.low_threshold)

def BatterySystem.needs_immediate_charging (b : BatterySystem) : Bool :=
  decide (b.current_charge ≤ b.critical_threshold)

def BatterySystem.is_fully_charged (b : BatterySystem) : Bool :=
  decide (b.current_charge ≥ b.capacity * (98/100))

/-- BatterySystem.estimate_remaining_time (minutes); `none` models the
float('inf') returned at a non-positive discharge rate. -/
def BatterySystem.estimate_remaining_time (b : BatterySystem)
    (is_moving is_carrying_cargo : Bool) : Option ℚ :=
  if b.current_charge ≤ 0 then some 0
  else
    let discharge_rate :=
      if is_moving then
        if is_carrying_cargo then b.discharge_rate_moving + b.discharge_rate_carrying
        else b.discharge_rate_moving
      else b.discharge_rate_idle
    if discharge_rate ≤ 0 then none
    else some ((b.current_charge / discharge_rate) / 60)

/-- BatterySystem.can_complete_task(estimated_task_time_minutes), at its
default arguments is_moving=True, is_carrying_cargo=True. -/
def BatterySystem.can_complete_task (b : BatterySystem)
    (estimated_task_time_minutes : ℚ) : Bool :=
  let safety_margin : ℚ := 5
  match b.estimate_remaining_time true true with
  | none => true
  | some remaining => decide (remaining ≥ estimated_task_time_minutes + safety_margin)

/-!
## Charging station (src/models/battery_system.py, class ChargingStation)
-/

structure ChargingStation where
  node_id : NodeId
  max_agvs : ℕ
  charging_agvs : Finset AgvId
  queue : List AgvId
  is_operational : Bool
  efficiency : ℚ
  total_charging_sessions : ℕ
  total_energy_provided : ℚ
deriving DecidableEq

def ChargingStation.init (node_id : NodeId) (max_agvs : ℕ) : ChargingStation :=
  { node_id := node_id, max_agvs := max_agvs, charging_agvs := ∅, queue := []
    is_operational := true, efficiency := 1, total_charging_sessions := 0
    total_energy_provided := 0 }

def ChargingStation.can_accept_agv (s : ChargingStation) : Bool :=
  s.is_operational && decide (s.charging_agvs.card < s.max_agvs)

/-- ChargingStation.add_agv_to_charge(agv_id). -/
def ChargingStation.add_agv_to_charge (s : ChargingStation) (agv_id : AgvId) :
    Bool × ChargingStation :=
  if s.can_accept_agv then
    (true, { s with charging_agvs := insert agv_id s.charging_agvs
                    total_charging_sessions := s.total_charging_sessions + 1 })
  else
    if agv_id ∈ s.queue then (false, s)
    else (false, { s with queue := s.queue ++ [agv_id] })

/-- ChargingStation.remove_agv_from_charge(agv_id) (lines 321-332): returns
the promoted AGV id, if any, next to the updated station. -/
def ChargingStation.remove_agv_from_charge (s : ChargingStation) (agv_id : AgvId) :
    Option AgvId × ChargingStation :=
  if agv_id ∈ s.charging_agvs then
    let charging := s.charging_agvs.erase agv_id
    match s.queue with
    | next_agv :: rest =>
        (some next_agv, { s with charging_agvs := insert next_agv charging, queue := rest })
    | [] => (none, { s with charging_agvs := charging })
  else (none, s)

/-!
## Orders, enhanced track (src/models/order.py)
-/

inductive OrderPriority where
  | LOW | NORMAL | HIGH | URGENT | EMERGENCY
deriving DecidableEq, Repr

/-- The numeric value of each OrderPriority enum member. -/
def OrderPriority.val : OrderPriority → ℕ
  | .LOW => 1
  | .NORMAL => 3
  | .HIGH => 5
  | .URGENT => 7
  | .EMERGENCY => 10

inductive OrderStatus where
  | PENDING | ASSIGNED | IN_PROGRESS | COMPLETED | CANCELLED | EXPIRED
deriving DecidableEq, Repr

/-- Order (src/models/order.py, class Order). `id` is the uuid-derived token,
`weight` the random.uniform(10, 100) draw; both enter through the draw
parameters of the constructor. -/
structure Order where
  id : String
  pickup_node_id : NodeId
  dropoff_node_id : NodeId
  priority : OrderPriority
  status : OrderStatus
  create_time : ℚ
  assign_time : Option ℚ
  start_time : Option ℚ
  complete_time : Option ℚ
  deadline : ℚ
  assigned_agv_id : Option AgvId
  cargo_type : String
  weight : ℚ
deriving DecidableEq, Repr

/-- Order._calculate_deadline(): seconds allowed, by priority. -/
def Order.calculateDeadline (priority : OrderPriority) : ℚ :=
  let base_time : ℚ := 300
  let priority_multiplier : ℚ :=
    match priority with
    | .EMERGENCY => 3/10
    | .URGENT => 1/2
    | .HIGH => 7/10
    | .NORMAL => 1
    | .LOW => 3/2
  base_time * priority_multiplier

/-- The eight cargo labels of Order._generate_cargo_type, by index. -/
def cargoTypes : List String :=
  ["electronic", "mechanical", "raw", "packaged", "chemical", "food", "medical", "tools"]

/-- Draws consumed by Order.__init__ itself (uuid token, cargo choice,
weight uniform in [10,100]). -/
structure OrderDraws where
  idDraw : String
  cargoDraw : ℕ
  weightDraw : ℚ
deriving DecidableEq, Repr

/-- Order.__init__(pickup_node_id, dropoff_node_id, priority), at wall-clock
time `now`. -/
def Order.create (pickup_node_id dropoff_node_id : NodeId) (priority : OrderPriority)
    (d : OrderDraws) (now : ℚ) : Order :=
  { id := d.idDraw
    pickup_node_id := pickup_node_id
    dropoff_node_id := dropoff_node_id
    priority := priority
    status := .PENDING
    create_time := now
    assign_time := none
    start_time := none
    complete_time := none
    deadline := now + Order.calculateDeadline priority
    assigned_agv_id := none
    cargo_type := (cargoTypes.getD (d.cargoDraw % cargoTypes.length) "")
    weight := d.weightDraw }

/-- Order.assign_to_agv(agv_id). -/
def Order.assign_to_agv (o : Order) (agv_id : AgvId) (now : ℚ) : Order :=
  { o with assigned_agv_id := some agv_id, assign_time := some now, status := .ASSIGNED }

/-- Order.start_execution(). -/
def Order.start_execution (o : Order) (now : ℚ) : Order :=
  { o with start_time := some now, status := .IN_PROGRESS }

/-- Order.complete(). -/
def Order.complete (o : Order) (now : ℚ) : Order :=
  { o with complete_time := some now, status := .COMPLETED }

/-- Order.cancel(). -/
def Order.cancel (o : Order) : Order :=
  { o with status := .CANCELLED }

/-- Order.is_expired() at wall-clock time `now`. -/
def Order.is_expired (o : Order) (now : ℚ) : Bool :=
  if o.status = .COMPLETED ∨ o.status = .CANCELLED then false
  else decide (now > o.deadline)

/-- Order.get_total_time() for a completed order. -/
def Order.get_total_time (o : Order) (now : ℚ) : ℚ :=
  match o.complete_time with
  | some t => t - o.create_time
  | none => now - o.create_time

/-!
## Baseline vehicle (src/models/agv.py, class AGV)

Only the fields read or written by update_battery, start_charging and
set_target are modelled; pose angles (atan2), speed, rendering and the
loading-dwell countdown details are presentation/motion state that no
claim reads. `current_order` keeps only its presence, which is all
update_battery inspects.
-/

structure AGV where
  id : AgvId
  current_node : Node
  target_node : Option Node
  x : ℚ
  y : ℚ
  moving : Bool
  waiting : Bool
  wait_counter : ℕ
  battery : ℚ
  is_charging : Bool
  need_charge : Bool
  current_order : Option Unit
  is_loaded : Bool
  loading_time : ℚ
  is_loading : Bool
deriving DecidableEq

/-- AGV.update_battery (src/models/agv.py, lines 65-88). One call covers one
60 Hz tick; the commented per-second rates are divided by 60 in the source. -/
def AGV.update_battery (a : AGV) : AGV :=
  let a :=
    if a.is_charging then
      let battery := min 100 (a.battery + 2/60)
      if battery ≥ 100 then { a with battery := battery, is_charging := false }
      else { a with battery := battery }
    else if a.is_loading then
      { a with battery := a.battery - (15/100)/60 }
    else if a.moving then
      if a.is_loaded then { a with battery := a.battery - (3/10)/60 }
      else { a with battery := a.battery - (2/10)/60 }
    else
      { a with battery := a.battery - (5/100)/60 }
  if a.battery < 30 ∧ a.current_order = none ∧ ¬a.is_charging then
    { a with need_charge := true }
  else a

/-- AGV.set_target(node) (src/models/agv.py, lines 114-143). The returned
triple is (return value, updated vehicle, updated node); the status string
and the atan2 heading are presentation state and omitted. -/
def AGV.set_target (a : AGV) (node : Node) : Bool × AGV × Node :=
  if node.id ∉ a.current_node.connections then
    (false, a, node)
  else if node.occupied_by ≠ none ∧ node.occupied_by ≠ some a.id then
    (false, { a with waiting := true }, node)
  else if node.reserved_by ≠ none ∧ node.reserved_by ≠ some a.id then
    (false, { a with waiting := true }, node)
  else
    let node := { node with reserved_by := some a.id, reservation_time := 100 }
    (true, { a with target_node := some node, moving := true, waiting := false }, node)

/-!
## Enhanced vehicle (src/models/enhanced_agv.py, class EnhancedAGV)

Fields read by the verified operations (set_target, the task scheduler's
sweep, assignment scoring). Pose angles, path bookkeeping, rendering and
the cumulative statistics counters are omitted.
-/

structure EnhancedAGV where
  id : AgvId
  current_node : Node
  target_node : Option Node
  x : ℚ
  y : ℚ
  moving : Bool
  waiting : Bool
  wait_counter : ℕ
  battery_system : BatterySystem
  is_carrying_cargo : Bool
  current_order : Option Order
  is_at_charging_station : Bool
deriving DecidableEq

/-- EnhancedAGV.set_target(node) (src/models/enhanced_agv.py, lines 82-104).
Unlike the baseline vehicle, the source performs no reserved_by check, and
its reservation window is 50 ticks. -/
def EnhancedAGV.set_target (a : EnhancedAGV) (node : Node) : Bool × EnhancedAGV × Node :=
  if node.id ∉ a.current_node.connections then
    (false, a, node)
  else if node.occupied_by ≠ none ∧ node.occupied_by ≠ some a.id then
    (false, { a with waiting := true }, node)
  else
    let node := { node with reserved_by := some a.id, reservation_time := 50 }
    (true, { a with target_node := some node, moving := true, waiting := false }, node)

/-- EnhancedAGV.assign_order(order). -/
def EnhancedAGV.assign_order (a : EnhancedAGV) (order : Order) : EnhancedAGV :=
  { a with current_order := some order }

/-!
## Path planner (src/algorithms/path_planner.py)

The planner is called with either vehicle class; the only vehicle attribute
it reads is agv.current_node.id, so the vehicle list is modelled as a list
of that one field. Distances are rationals (edge weights come from the
neighbors map); `none` in a distance table models float('inf'). The A*
heuristic (math.sqrt of a coordinate difference) is real-valued and is
threaded as a function parameter. The two unbounded while-loops carry a
fuel parameter bounding their iteration count.
-/

structure AgvRef where
  current_node_id : NodeId
deriving DecidableEq, Repr

/-- ASCII lowercase of one character: Python str.lower on the ASCII range
(algorithm names are ASCII). -/
def pyLowerChar (c : Char) : Char :=
  if c.isUpper then Char.ofNat (c.toNat + 32) else c

/-- Python str.lower for ASCII strings. -/
def pyLower (s : String) : String :=
  ⟨s.data.map pyLowerChar⟩

/-- Code-point lexicographic comparison of character lists: Python's string
ordering, used by heapq when two queue entries tie on distance. -/
def charListLt : List Char → List Char → Bool
  | _, [] => false
  | [], _ :: _ => true
  | a :: as, b :: bs =>
    if a.toNat < b.toNat then true
    else if b.toNat < a.toNat then false
    else charListLt as bs

/-- Python string comparison by code points. -/
def strLt (a b : String) : Bool := charListLt a.data b.data

/-- PathPlanner._calculate_cost(current_node, neighbor_node, agvs, start_id)
(lines 128-163). -/
def calculateCost (current_node neighbor_node : Node) (agvs : Option (List AgvRef))
    (start_id : NodeId) : ℚ :=
  let base_distance := (getA current_node.neighbors neighbor_node.id).getD 100
  match agvs with
  | none => base_distance
  | some agvs =>
    if neighbor_node.occupied_by ≠ none then
      let is_own_node := agvs.any fun agv =>
        agv.current_node_id = start_id ∧ agv.current_node_id = neighbor_node.id
      if ¬is_own_node then base_distance * 5 else base_distance
    else base_distance

/-- Comparison against a distance table entry, with `none` playing
float('inf'). -/
def optLt (a b : Option ℚ) : Bool :=
  match a, b with
  | none, _ => false
  | some _, none => true
  | some x, some y => decide (x < y)

/-- Total order on heap entries, matching heapq's tuple comparison
(distance first, then the node-id string). -/
def entryLe (x y : ℚ × NodeId) : Bool :=
  decide (x.1 < y.1) || (decide (x.1 = y.1) && (strLt x.2 y.2 || decide (x.2 = y.2)))

/-- Pop the minimum entry of the priority queue (heapq.heappop): returns the
least entry under `entryLe` and the remaining entries. -/
def popMin : List (ℚ × NodeId) → Option ((ℚ × NodeId) × List (ℚ × NodeId))
  | [] => none
  | x :: xs =>
    match popMin xs with
    | none => some (x, [])
    | some (m, rest) => if entryLe x m then some (x, xs) else some (m, x :: rest)

/-- State threaded through Dijkstra's relaxation: distance table,
predecessor map, priority queue. -/
abbrev DijkstraState := List (NodeId × Option ℚ) × List (NodeId × NodeId) × List (ℚ × NodeId)

/-- Distance-table read; a missing key reads as infinity (keys for every
node id are pre-seeded, so this default is never hit on source inputs). -/
def distLookup (dists : List (NodeId × Option ℚ)) (id : NodeId) : Option ℚ :=
  (getA dists id).getD none

/-- One relaxation of Dijkstra's inner for-loop (lines 46-58). -/
def relaxNeighbor (nodes : NodeMap) (agvs : Option (List AgvRef)) (start_id : NodeId)
    (cur : Node) (current_id : NodeId) (st : DijkstraState) (neighbor_id : NodeId) :
    DijkstraState :=
  match lookupNode nodes neighbor_id with
  | none => st
  | some nb =>
    let (dists, previous, heap) := st
    let distance := calculateCost cur nb agvs start_id
    match distLookup dists current_id with
    | none => st
    | some dcur =>
      let new_distance := dcur + distance
      if optLt (some new_distance) (distLookup dists neighbor_id) then
        (setA dists neighbor_id (some new_distance),
         setA previous neighbor_id current_id,
         (new_distance, neighbor_id) :: heap)
      else st

/-- Dijkstra's while-loop (lines 36-58); returns the final predecessor map. -/
def dijkstraLoop (nodes : NodeMap) (agvs : Option (List AgvRef))
    (start_id end_id : NodeId) :
    ℕ → List (NodeId × Option ℚ) → List (NodeId × NodeId) → List (ℚ × NodeId) →
    List (NodeId × NodeId)
  | 0, _, previous, _ => previous
  | fuel + 1, dists, previous, unvisited =>
    match popMin unvisited with
    | none => previous
    | some ((current_dist, current_id), rest) =>
      if current_id = end_id then previous
      else if optLt (distLookup dists current_id) (some current_dist) then
        dijkstraLoop nodes agvs start_id end_id fuel dists previous rest
      else
        match lookupNode nodes current_id with
        | none => dijkstraLoop nodes agvs start_id end_id fuel dists previous rest
        | some cur =>
          let (dists, previous, rest) := cur.connections.foldl
            (relaxNeighbor nodes agvs start_id cur current_id) (dists, previous, rest)
          dijkstraLoop nodes agvs start_id end_id fuel dists previous rest

/-- The backward walk of PathPlanner._reconstruct_path (lines 178-183),
with fuel bounding the while-loop (the predecessor map is acyclic, so
`previous.length + 1` steps always suffice). -/
def walkPrevious (previous : List (NodeId × NodeId)) :
    ℕ → NodeId → List NodeId → List NodeId
  | 0, _, path => path
  | fuel + 1, current, path =>
    match getA previous current with
    | none => path
    | some pred => walkPrevious previous fuel pred (path ++ [current])

/-- PathPlanner._reconstruct_path(previous, start_id, end_id): a single-node
result is treated as no path. -/
def reconstructPath (previous : List (NodeId × NodeId)) (start_id end_id : NodeId) :
    List NodeId :=
  let path := walkPrevious previous (previous.length + 1) end_id []
  let path := path ++ [start_id]
  let path := path.reverse
  if path.length > 1 then path else []

/-- PathPlanner.dijkstra(nodes, start_id, end_id, agvs) (lines 14-61). -/
def dijkstra (fuel : ℕ) (nodes : NodeMap) (start_id end_id : NodeId)
    (agvs : Option (List AgvRef)) : List NodeId :=
  if start_id ∉ nodeIds nodes ∨ end_id ∉ nodeIds nodes then []
  else
    let dists := (nodeIds nodes).map fun id => (id, none (α := ℚ))
    let dists := setA dists start_id (some 0)
    let previous := dijkstraLoop nodes agvs start_id end_id fuel dists [] [(0, start_id)]
    reconstructPath previous start_id end_id

/-- PathPlanner._is_in_open_set(open_set, node_id). -/
def isInOpenSet (open_set : List (ℚ × NodeId)) (node_id : NodeId) : Bool :=
  open_set.any fun p => p.2 = node_id

/-- State threaded through A*'s relaxation: open set, came_from, g-scores,
f-scores. -/
abbrev AStarState :=
  List (ℚ × NodeId) × List (NodeId × NodeId) × List (NodeId × Option ℚ) ×
    List (NodeId × Option ℚ)

/-- One relaxation of A*'s inner for-loop (lines 108-124); `heuristic` stands
for the source's Euclidean-distance closure over node ids. -/
def aStarRelax (nodes : NodeMap) (agvs : Option (List AgvRef)) (start_id end_id : NodeId)
    (heuristic : NodeId → NodeId → ℚ) (cur : Node) (current_id : NodeId)
    (st : AStarState) (neighbor_id : NodeId) : AStarState :=
  match lookupNode nodes neighbor_id with
  | none => st
  | some nb =>
    let (open_set, came_from, g_score, f_score) := st
    let base_cost := calculateCost cur nb agvs start_id
    match distLookup g_score current_id with
    | none => st
    | some gcur =>
      let tentative_g_score := gcur + base_cost
      if optLt (some tentative_g_score) (distLookup g_score neighbor_id) then
        let came_from := setA came_from neighbor_id current_id
        let g_score := setA g_score neighbor_id (some tentative_g_score)
        let fval := tentative_g_score + heuristic neighbor_id end_id
        let f_score := setA f_score neighbor_id (some fval)
        let open_set :=
          if ¬isInOpenSet open_set neighbor_id then (fval, neighbor_id) :: open_set
          else open_set
        (open_set, came_from, g_score, f_score)
      else st

/-- The inline path reconstruction of A* on reaching the goal
(lines 99-105); note the missing single-node check of _reconstruct_path. -/
def aStarReconstruct (came_from : List (NodeId × NodeId)) (start_id current_id : NodeId) :
    List NodeId :=
  let path := walkPrevious came_from (came_from.length + 1) current_id []
  let path := path ++ [start_id]
  path.reverse

/-- A*'s while-loop (lines 94-126). -/
def aStarLoop (nodes : NodeMap) (agvs : Option (List AgvRef)) (start_id end_id : NodeId)
    (heuristic : NodeId → NodeId → ℚ) :
    ℕ → AStarState → List NodeId
  | 0, _ => []
  | fuel + 1, (open_set, came_from, g_score, f_score) =>
    match popMin open_set with
    | none => []
    | some ((_, current_id), rest) =>
      if current_id = end_id then aStarReconstruct came_from start_id current_id
      else
        match lookupNode nodes current_id with
        | none => aStarLoop nodes agvs start_id end_id heuristic fuel
            (rest, came_from, g_score, f_score)
        | some cur =>
          let st := cur.connections.foldl
            (aStarRelax nodes agvs start_id end_id heuristic cur current_id)
            (rest, came_from, g_score, f_score)
          aStarLoop nodes agvs start_id end_id heuristic fuel st

/-- PathPlanner.a_star(nodes, start_id, end_id, agvs) (lines 64-126). -/
def aStar (heuristic : NodeId → NodeId → ℚ) (fuel : ℕ) (nodes : NodeMap)
    (start_id end_id : NodeId) (agvs : Option (List AgvRef)) : List NodeId :=
  if start_id ∉ nodeIds nodes ∨ end_id ∉ nodeIds nodes then []
  else
    let g_score := (nodeIds nodes).map fun id => (id, none (α := ℚ))
    let g_score := setA g_score start_id (some 0)
    let f_score := (nodeIds nodes).map fun id => (id, none (α := ℚ))
    let f_score := setA f_score start_id (some (heuristic start_id end_id))
    aStarLoop nodes agvs start_id end_id heuristic fuel
      ([(0, start_id)], [], g_score, f_score)

/-- The error raised by plan_path on an unrecognized algorithm name
(Python ValueError). -/
inductive PlanError where
  | unsupportedAlgorithm
deriving DecidableEq, Repr

/-- PathPlanner.plan_path(algorithm, nodes, start_id, end_id, agvs)
(lines 198-218). -/
def planPath (algorithm : String) (heuristic : NodeId → NodeId → ℚ) (fuel : ℕ)
    (nodes : NodeMap) (start_id end_id : NodeId) (agvs : Option (List AgvRef)) :
    Except PlanError (List NodeId) :=
  if pyLower algorithm = "dijkstra" then
    .ok (dijkstra fuel nodes start_id end_id agvs)
  else if pyLower algorithm = "a_star" ∨ pyLower algorithm = "astar" then
    .ok (aStar heuristic fuel nodes start_id end_id agvs)
  else
    .error .unsupportedAlgorithm

/-- Single-step edge relation of the directed graph: `b` is a registered,
present connection of the present node `a`. -/
def GraphStep (nodes : NodeMap) (a b : NodeId) : Prop :=
  ∃ n, lookupNode nodes a = some n ∧ b ∈ n.connections ∧ (lookupNode nodes b).isSome

/-- Reachability along directed connections. -/
def Reachable (nodes : NodeMap) (a b : NodeId) : Prop :=
  Relation.ReflTransGen (GraphStep nodes) a b

/-- Every id queued in a priority queue is reachable from the start. -/
def HeapReach (nodes : NodeMap) (start_id : NodeId) (heap : List (ℚ × NodeId)) : Prop :=
  ∀ p ∈ heap, Reachable nodes start_id p.2

/-- Every key of a predecessor map is reachable from the start. -/
def PrevReach (nodes : NodeMap) (start_id : NodeId) (prev : List (NodeId × NodeId)) : Prop :=
  ∀ p ∈ prev, Reachable nodes start_id p.1

/-!
## Order generator (src/models/order.py, class OrderGenerator)

random.choice(pool) is modelled as indexing the pool by a drawn index
modulo its length (callers guard non-emptiness, so the `getD` default is
never reached on source inputs). random.choices with the priority weights
LOW=10, NORMAL=60, HIGH=20, URGENT=8, EMERGENCY=2 is modelled by its
inverse CDF over a drawn position in [0, 100).
-/

structure OrderGenerator where
  is_active : Bool
  lambda_rate : ℚ
  pickup_nodes : List NodeId
  dropoff_nodes : List NodeId
  total_generated : ℕ
deriving DecidableEq, Repr

/-- random.choice over a node-id pool, by drawn index. -/
def choiceD (pool : List NodeId) (i : ℕ) : NodeId :=
  pool.getD (i % pool.length) ""

/-- Inverse CDF of random.choices over the priority weights
{LOW: 10, NORMAL: 60, HIGH: 20, URGENT: 8, EMERGENCY: 2}: cumulative
boundaries 10, 70, 90, 98, 100. -/
def priorityFromDraw (r : ℚ) : OrderPriority :=
  if r < 10 then .LOW
  else if r < 70 then .NORMAL
  else if r < 90 then .HIGH
  else if r < 98 then .URGENT
  else .EMERGENCY

/-- The draws consumed by one call of OrderGenerator._generate_order /
manual_generate_order. -/
structure GenDraws where
  pickupDraw : ℕ
  dropoffDraw : ℕ
  redrawDraw : ℕ
  priorityDraw : ℚ
  orderDraws : OrderDraws
deriving DecidableEq, Repr

/-- OrderGenerator._generate_order() (src/models/order.py, lines 213-251). -/
def OrderGenerator.generateOrder (gen : OrderGenerator) (d : GenDraws) (now : ℚ) :
    Option Order × OrderGenerator :=
  if gen.pickup_nodes = [] ∨ gen.dropoff_nodes = [] then (none, gen)
  else
    let pickup_node := choiceD gen.pickup_nodes d.pickupDraw
    let dropoff_node := choiceD gen.dropoff_nodes d.dropoffDraw
    let dropoff_node :=
      if pickup_node = dropoff_node ∧ gen.dropoff_nodes.length > 1 then
        choiceD (gen.dropoff_nodes.erase pickup_node) d.redrawDraw
      else dropoff_node
    let priority := priorityFromDraw d.priorityDraw
    let order := Order.create pickup_node dropoff_node priority d.orderDraws now
    (some order, { gen with total_generated := gen.total_generated + 1 })

/-- OrderGenerator.manual_generate_order(pickup_node_id, dropoff_node_id,
priority) (src/models/order.py, lines 253-265); `none` arguments model
omitted/None parameters resolved by Python's `or` defaulting. -/
def OrderGenerator.manualGenerateOrder (gen : OrderGenerator)
    (pickup_node_id dropoff_node_id : Option NodeId) (priority : Option OrderPriority)
    (d : GenDraws) (now : ℚ) : Order × OrderGenerator :=
  let pickup_node := pickup_node_id.getD (choiceD gen.pickup_nodes d.pickupDraw)
  let dropoff_node := dropoff_node_id.getD (choiceD gen.dropoff_nodes d.dropoffDraw)
  let priority := priority.getD .NORMAL
  let order := Order.create pickup_node dropoff_node priority d.orderDraws now
  (order, { gen with total_generated := gen.total_generated + 1 })

/-!
## Simple scheduler (src/models/scheduler.py, class Scheduler)

Only the charging-node selection consulted by check_idle_agvs is embedded.
Scheduler._calculate_distance computes math.sqrt of a squared coordinate
difference, in general irrational, so the distance function is a parameter;
`EuclidDistOn` pins it to the Euclidean distance on the node pairs a
theorem actually uses.
-/

structure SimpleScheduler where
  charging_reservations : List (NodeId × Finset AgvId)
deriving DecidableEq

/-- One iteration of _find_best_charging_node's scan: keep the best
(node, score) pair so far, starting from (None, inf); `none` in the score
slot is float('inf'). -/
def chargingStep (dist : Node → Node → ℚ) (sch : SimpleScheduler) (agv_current : Node)
    (best : Option Node × Option ℚ) (node : Node) : Option Node × Option ℚ :=
  let reservations := ((getA sch.charging_reservations node.id).getD ∅).card
  let reservations := if node.occupied_by ≠ none then reservations + 2 else reservations
  let score := dist agv_current node + reservations * 50
  if optLt (some score) best.2 then (some node, some score) else best

/-- Scheduler._find_best_charging_node(agv, nodes, agvs)
(src/models/scheduler.py, lines 222-249), with `dist` standing for
self._calculate_distance and `agv_current` for agv.current_node. -/
def findBestChargingNode (dist : Node → Node → ℚ) (sch : SimpleScheduler)
    (agv_current : Node) (nodes : NodeMap) : Option Node :=
  let charging_nodes := (nodes.map Prod.snd).filter fun n => n.node_type = "charging"
  if charging_nodes = [] then none
  else (charging_nodes.foldl (chargingStep dist sch agv_current) (none, none)).1

/-- The score _find_best_charging_node assigns to a candidate station. -/
def chargingScore (dist : Node → Node → ℚ) (sch : SimpleScheduler)
    (agv_current : Node) (node : Node) : ℚ :=
  let reservations := ((getA sch.charging_reservations node.id).getD ∅).card
  let reservations := if node.occupied_by ≠ none then reservations + 2 else reservations
  dist agv_current node + reservations * 50

/-- `dist` agrees with the Euclidean straight-line distance from `c` on
every node of `targets`: it is non-negative and its square is the squared
coordinate difference. This characterizes math.sqrt without leaving ℚ. -/
def EuclidDistOn (dist : Node → Node → ℚ) (c : Node) (targets : List Node) : Prop :=
  ∀ n ∈ targets, 0 ≤ dist c n ∧ dist c n ^ 2 = (c.x - n.x) ^ 2 + (c.y - n.y) ^ 2

/-!
## Task scheduler (src/models/task_scheduler.py)

simulation_widget.send_agv_to_target returns a Bool and is modelled by the
oracle parameter `sendOk`; the motion re-routing it performs touches only
path/pose fields no sweep re-reads within the same call. time.time() is the
explicit `now`. The straight-line distance of _calculate_agv_score
(math.sqrt) is the function parameter `euclid`.
-/

inductive SchedulingStrategy where
  | FIFO | PRIORITY | SHORTEST_JOB | NEAREST_FIRST | DEADLINE_FIRST | BALANCED
deriving DecidableEq, Repr

inductive TaskType where
  | TRANSPORT | CHARGING | MAINTENANCE | RETURN_HOME
deriving DecidableEq, Repr

/-- Task (src/models/task_scheduler.py, class Task). -/
structure Task where
  task_type : TaskType
  agv_id : AgvId
  target_node_id : NodeId
  order : Option Order
  create_time : ℚ
  start_time : Option ℚ
  complete_time : Option ℚ
  estimated_duration : ℚ
  is_started : Bool
  is_completed : Bool
  is_cancelled : Bool
  picked_up : Bool
  delivered : Bool
deriving DecidableEq, Repr

/-- Task._estimate_duration(). -/
def Task.estimateDuration (task_type : TaskType) : ℚ :=
  match task_type with
  | .CHARGING => 120
  | .TRANSPORT => 60
  | .MAINTENANCE => 300
  | .RETURN_HOME => 30

/-- Task.__init__(task_type, agv_id, target_node_id, order). -/
def Task.create (task_type : TaskType) (agv_id : AgvId) (target_node_id : NodeId)
    (order : Option Order) (now : ℚ) : Task :=
  { task_type := task_type, agv_id := agv_id, target_node_id := target_node_id
    order := order, create_time := now, start_time := none, complete_time := none
    estimated_duration := Task.estimateDuration task_type
    is_started := false, is_completed := false, is_cancelled := false
    picked_up := false, delivered := false }

/-- Task.start(): also advances the shared order object to IN_PROGRESS. -/
def Task.start (t : Task) (now : ℚ) : Task :=
  { t with is_started := true, start_time := some now
           order := t.order.map fun o => o.start_execution now }

/-- Task.complete(): also completes the shared order object. -/
def Task.complete (t : Task) (now : ℚ) : Task :=
  { t with is_completed := true, complete_time := some now
           order := t.order.map fun o => o.complete now }

/-- OrderQueue (src/models/task_scheduler.py, class OrderQueue). -/
structure OrderQueue where
  pending_orders : List Order
  processing_orders : List (AgvId × Order)
  completed_orders : List Order
  cancelled_orders : List Order
  total_orders : ℕ
  completion_times : List ℚ
  waiting_times : List ℚ
deriving DecidableEq, Repr

def OrderQueue.init : OrderQueue :=
  { pending_orders := [], processing_orders := [], completed_orders := []
    cancelled_orders := [], total_orders := 0, completion_times := [], waiting_times := [] }

/-- Stable-descending comparator for the PRIORITY strategy's
sort(key = (priority.value, create_time), reverse = True). -/
def priorityDesc (a b : Order) : Bool :=
  decide (b.priority.val < a.priority.val) ||
    (decide (a.priority.val = b.priority.val) && decide (b.create_time ≤ a.create_time))

/-- Stable-ascending comparator for the DEADLINE_FIRST strategy's
sort(key = deadline). -/
def deadlineAsc (a b : Order) : Bool :=
  decide (a.deadline ≤ b.deadline)

/-- OrderQueue.get_next_order(strategy) (lines 126-149): SHORTEST_JOB,
NEAREST_FIRST and BALANCED fall through to the FIFO-equivalent popleft. -/
def OrderQueue.getNextOrder (q : OrderQueue) (strategy : SchedulingStrategy) :
    Option Order × OrderQueue :=
  match q.pending_orders with
  | [] => (none, q)
  | first :: rest =>
    match strategy with
    | .FIFO => (some first, { q with pending_orders := rest })
    | .PRIORITY =>
      match (first :: rest).mergeSort priorityDesc with
      | [] => (none, q)
      | top :: remaining => (some top, { q with pending_orders := remaining })
    | .DEADLINE_FIRST =>
      match (first :: rest).mergeSort deadlineAsc with
      | [] => (none, q)
      | top :: remaining => (some top, { q with pending_orders := remaining })
    | _ => (some first, { q with pending_orders := rest })

/-- OrderQueue.complete_order(agv_id) (lines 158-168). -/
def OrderQueue.complete_order (q : OrderQueue) (agv_id : AgvId) (now : ℚ) : OrderQueue :=
  match getN q.processing_orders agv_id with
  | none => q
  | some order =>
    let order := order.complete now
    { q with processing_orders := delN q.processing_orders agv_id
             completed_orders := q.completed_orders ++ [order]
             completion_times := q.completion_times ++ [order.get_total_time now] }

/-- TaskScheduler (src/models/task_scheduler.py, class TaskScheduler), with
the simulation widget's live node map and vehicle list inlined as fields. -/
structure TaskScheduler where
  order_queue : OrderQueue
  scheduling_strategy : SchedulingStrategy
  agv_tasks : List (AgvId × Task)
  total_assignments : ℕ
  failed_assignments : ℕ
  agvs : List EnhancedAGV
  nodes : NodeMap
deriving DecidableEq

/-- TaskScheduler._find_agv_by_id(agv_id). -/
def TaskScheduler.findAgvById (agvs : List EnhancedAGV) (agv_id : AgvId) :
    Option EnhancedAGV :=
  agvs.find? fun agv => agv.id = agv_id

/-- TaskScheduler._get_available_agvs() (lines 348-359). -/
def TaskScheduler.getAvailableAgvs (ts : TaskScheduler) : List EnhancedAGV :=
  ts.agvs.filter fun agv =>
    (getN ts.agv_tasks agv.id).isNone && !agv.moving &&
      agv.battery_system.can_move && !agv.battery_system.is_charging

/-- TaskScheduler._estimate_task_time(agv, order): the fixed 90-second
estimate. -/
def TaskScheduler.estimateTaskTime (_agv : EnhancedAGV) (_order : Order) : ℚ := 90

/-- TaskScheduler._calculate_agv_score(agv, order) (lines 377-399);
`euclid` stands for the straight-line distance computed with math.sqrt. -/
def TaskScheduler.calculateAgvScore (euclid : ℚ × ℚ → ℚ × ℚ → ℚ) (nodes : NodeMap)
    (agv : EnhancedAGV) (order : Order) : ℚ :=
  let score : ℚ := 0
  let score :=
    match lookupNode nodes order.pickup_node_id with
    | some pickup_node =>
      let distance := euclid (agv.x, agv.y) (pickup_node.x, pickup_node.y)
      let distance_score := max 0 (1000 - distance)
      score + distance_score
    | none => score
  let battery_score := agv.battery_system.current_charge * 2
  let score := score + battery_score
  let estimated_task_time := TaskScheduler.estimateTaskTime agv order
  if agv.battery_system.can_complete_task (estimated_task_time / 60) then score + 200
  else score - 500

/-- TaskScheduler._select_best_agv(order, available_agvs) (lines 361-375):
best_score starts at float('-inf'), comparisons are strict. -/
def TaskScheduler.selectBestAgv (euclid : ℚ × ℚ → ℚ × ℚ → ℚ) (nodes : NodeMap)
    (order : Order) (available_agvs : List EnhancedAGV) : Option EnhancedAGV :=
  if available_agvs = [] then none
  else
    (available_agvs.foldl
      (fun (best : Option EnhancedAGV × Option ℚ) agv =>
        let score := TaskScheduler.calculateAgvScore euclid nodes agv order
        match best.2 with
        | none => (some agv, some score)
        | some best_score =>
          if score > best_score then (some agv, some score) else best)
      (none, none)).1

/-- TaskScheduler._assign_transport_task(agv, order) (lines 405-435).
Python mutates one shared Order object via assign_to_agv and
start_execution (inside task.start); the final value is stored at each of
its aliases (the task, the processing map, the vehicle). -/
def TaskScheduler.assignTransportTask (sendOk : AgvId → NodeId → Bool) (now : ℚ)
    (ts : TaskScheduler) (agv : EnhancedAGV) (order : Order) : Bool × TaskScheduler :=
  let task := Task.create .TRANSPORT agv.id order.pickup_node_id (some order) now
  let success := sendOk agv.id order.pickup_node_id
  if success then
    let o2 := (order.assign_to_agv agv.id now).start_execution now
    let task := { task with order := some o2, is_started := true, start_time := some now }
    let q := ts.order_queue
    let q := { q with processing_orders := setN q.processing_orders agv.id o2
                      waiting_times := q.waiting_times ++ [now - order.create_time] }
    (true, { ts with agv_tasks := setN ts.agv_tasks agv.id task
                     order_queue := q
                     agvs := ts.agvs.map fun a => if a.id = agv.id then a.assign_order o2 else a
                     total_assignments := ts.total_assignments + 1 })
  else
    (false, { ts with failed_assignments := ts.failed_assignments + 1 })

/-- The while-loop of TaskScheduler._process_task_assignments
(lines 337-346). Each iteration dequeues exactly one pending order, so the
entry fuel `pending_orders.length` reproduces the loop's genuine exit; note
that available_agvs.remove(best_agv) runs whether or not
_assign_transport_task succeeded. -/
def TaskScheduler.processAssignLoop (sendOk : AgvId → NodeId → Bool)
    (euclid : ℚ × ℚ → ℚ × ℚ → ℚ) (now : ℚ) :
    ℕ → List EnhancedAGV → TaskScheduler → TaskScheduler
  | 0, _, ts => ts
  | fuel + 1, available_agvs, ts =>
    if available_agvs = [] ∨ ts.order_queue.pending_orders = [] then ts
    else
      let r := ts.order_queue.getNextOrder ts.scheduling_strategy
      let ts' := { ts with order_queue := r.2 }
      match r.1 with
      | none => ts'
      | some order =>
        match TaskScheduler.selectBestAgv euclid ts'.nodes order available_agvs with
        | none => TaskScheduler.processAssignLoop sendOk euclid now fuel available_agvs ts'
        | some best_agv =>
          let p := TaskScheduler.assignTransportTask sendOk now ts' best_agv order
          TaskScheduler.processAssignLoop sendOk euclid now fuel
            (available_agvs.erase best_agv) p.2

/-- TaskScheduler._process_task_assignments() (lines 329-346). -/
def TaskScheduler.processTaskAssignments (sendOk : AgvId → NodeId → Bool)
    (euclid : ℚ × ℚ → ℚ × ℚ → ℚ) (now : ℚ) (ts : TaskScheduler) : TaskScheduler :=
  let available_agvs := ts.getAvailableAgvs
  if available_agvs = [] then ts
  else TaskScheduler.processAssignLoop sendOk euclid now
    ts.order_queue.pending_orders.length available_agvs ts

/-- Python exceptions surfaced inside the completion sweep's try block. -/
inductive PyErr where
  | attributeError
deriving DecidableEq, Repr

/-- The attribute access agv.is_task_completed at task_scheduler.py:300.
Neither EnhancedAGV (src/models/enhanced_agv.py) nor the baseline AGV
defines a method of this name anywhere in the repository, so the lookup
raises AttributeError on every vehicle. -/
def EnhancedAGV.isTaskCompletedCall (_agv : EnhancedAGV) : Except PyErr Bool :=
  .error .attributeError

/-- The attribute access agv.clear_current_order at task_scheduler.py:306:
likewise undefined on every vehicle class, so it raises AttributeError. -/
def EnhancedAGV.clearCurrentOrderCall (_agv : EnhancedAGV) : Except PyErr EnhancedAGV :=
  .error .attributeError

/-- The body of _check_task_completion_safe's for-loop for one snapshot
entry (lines 277-321), threading the scheduler state and the list of
completed task ids. The only raising operations inside the try block are
the two undefined attribute accesses, and each is evaluated before any
mutation of its branch, so catching the error with the pre-entry state is
exact. -/
def TaskScheduler.sweepStep (sendOk : AgvId → NodeId → Bool) (now : ℚ)
    (acc : TaskScheduler × List AgvId) (entry : AgvId × Task) :
    TaskScheduler × List AgvId :=
  let (ts, completed) := acc
  let (agv_id, task) := entry
  match TaskScheduler.findAgvById ts.agvs agv_id with
  | none => (ts, completed ++ [agv_id])
  | some agv =>
    let tryResult : Except PyErr (TaskScheduler × List AgvId) :=
      if task.task_type = .TRANSPORT ∧ task.order ≠ none ∧ ¬agv.moving then
        match task.order with
        | some order =>
          if agv.current_node.id = order.pickup_node_id ∧ ¬task.picked_up ∧
              ¬agv.is_carrying_cargo then
            let task := { task with picked_up := true }
            let ts := { ts with agv_tasks := setN ts.agv_tasks agv_id task }
            let _ := sendOk agv_id order.dropoff_node_id
            .ok (ts, completed)
          else do
            let done ← agv.isTaskCompletedCall
            if done then
              let task := Task.complete task now
              let q := OrderQueue.complete_order ts.order_queue agv_id now
              let agvCleared ← agv.clearCurrentOrderCall
              let ts := { ts with
                agv_tasks := setN ts.agv_tasks agv_id task
                order_queue := q
                agvs := ts.agvs.map fun a => if a.id = agv_id then agvCleared else a }
              .ok (ts, completed ++ [agv_id])
            else .ok (ts, completed)
        | none => .ok (ts, completed)
      else if task.task_type = .CHARGING ∧ agv.battery_system.is_fully_charged then
        let task := Task.complete task now
        let ts := { ts with agv_tasks := setN ts.agv_tasks agv_id task }
        .ok (ts, completed ++ [agv_id])
      else .ok (ts, completed)
    match tryResult with
    | .ok r => r
    | .error _ => (ts, completed ++ [agv_id])

/-- TaskScheduler._check_task_completion_safe() (lines 273-327): process a
snapshot of the task map, then pop every id collected in completed_tasks. -/
def TaskScheduler.checkTaskCompletionSafe (sendOk : AgvId → NodeId → Bool) (now : ℚ)
    (ts : TaskScheduler) : TaskScheduler :=
  let snapshot := ts.agv_tasks
  let r := snapshot.foldl (TaskScheduler.sweepStep sendOk now) (ts, [])
  { r.1 with agv_tasks := r.2.foldl delN r.1.agv_tasks }

/-!
## Concrete instances used by witnesses and counterexamples
-/

/-- A two-slot station charging vehicle 2 with vehicle 5 queued. -/
def stationW : ChargingStation :=
  { node_id := "CP01", max_agvs := 2, charging_agvs := {2}, queue := [5]
    is_operational := true, efficiency := 1, total_charging_sessions := 1
    total_energy_provided := 0 }

/-- Node A, connected to B. -/
def nodeA2 : Node :=
  { id := "A", x := 0, y := 0, node_type := "normal", connections := ["B"]
    neighbors := [("B", 10)], occupied_by := some 1, reserved_by := none
    reservation_time := 0 }

/-- Node B: free but reserved by vehicle 99. -/
def nodeB2 : Node :=
  { id := "B", x := 10, y := 0, node_type := "normal", connections := []
    neighbors := [], occupied_by := none, reserved_by := some 99
    reservation_time := 0 }

/-- Node C: occupied by vehicle 7. -/
def nodeC2 : Node :=
  { id := "C", x := 0, y := 10, node_type := "normal", connections := []
    neighbors := [], occupied_by := some 7, reserved_by := none
    reservation_time := 0 }

/-- An enhanced vehicle standing on node A. -/
def agvE2 : EnhancedAGV :=
  { id := 1, current_node := { nodeA2 with connections := ["B", "C"] }
    target_node := none, x := 0, y := 0, moving := false, waiting := false
    wait_counter := 0, battery_system := BatterySystem.init 100 90
    is_carrying_cargo := false, current_order := none
    is_at_charging_station := false }

/-- A baseline vehicle standing on node A. -/
def agvB2 : AGV :=
  { id := 1, current_node := { nodeA2 with connections := ["B", "C"] }
    target_node := none, x := 0, y := 0, moving := false, waiting := false
    wait_counter := 0, battery := 100, is_charging := false, need_charge := false
    current_order := none, is_loaded := false, loading_time := 0, is_loading := false }

/-- A baseline vehicle at exactly zero battery, idle (within the claimed
[0, 100] bounds before the update). -/
def agvB3 : AGV :=
  { agvB2 with battery := 0 }

/-- Generator pools where the drawn pickup can coincide with the drawn
dropoff. -/
def genC6 : OrderGenerator :=
  { is_active := true, lambda_rate := 1/2, pickup_nodes := ["N1"]
    dropoff_nodes := ["N1", "N2"], total_generated := 0 }

/-- Draws whose priority position (75) falls in the HIGH band of the
categorical distribution, and whose pickup and dropoff choices coincide. -/
def drawsC6 : GenDraws :=
  { pickupDraw := 0, dropoffDraw := 0, redrawDraw := 0, priorityDraw := 75
    orderDraws := { idDraw := "o1", cargoDraw := 0, weightDraw := 50 } }

/-- Generator pools with distinct drawn pickup and dropoff, for the amended
C6 witness. -/
def genC6w : OrderGenerator :=
  { is_active := true, lambda_rate := 1/2, pickup_nodes := ["P1"]
    dropoff_nodes := ["D1"], total_generated := 0 }

def drawsC6w : GenDraws :=
  { pickupDraw := 0, dropoffDraw := 0, redrawDraw := 0, priorityDraw := 95
    orderDraws := { idDraw := "o2", cargoDraw := 1, weightDraw := 20 } }

/-- C5 map: every node lies on the x-axis, so every straight-line distance
is the exact rational |x1 − x2|. Charging node CP1 is Euclidean-near the
vehicle but two hops away; CP2 is Euclidean-far but directly connected. -/
def nodeA5 : Node :=
  { id := "A", x := 0, y := 0, node_type := "normal", connections := ["N1", "CP2"]
    neighbors := [("N1", 10), ("CP2", 30)], occupied_by := some 1
    reserved_by := none, reservation_time := 0 }

def nodeN15 : Node :=
  { id := "N1", x := 10, y := 0, node_type := "normal", connections := ["CP1"]
    neighbors := [("CP1", 10)], occupied_by := none, reserved_by := none
    reservation_time := 0 }

def nodeCP15 : Node :=
  { id := "CP1", x := 20, y := 0, node_type := "charging", connections := []
    neighbors := [], occupied_by := none, reserved_by := none, reservation_time := 0 }

def nodeCP25 : Node :=
  { id := "CP2", x := 30, y := 0, node_type := "charging", connections := []
    neighbors := [], occupied_by := none, reserved_by := none, reservation_time := 0 }

def nodesC5 : NodeMap :=
  [("A", nodeA5), ("N1", nodeN15), ("CP1", nodeCP15), ("CP2", nodeCP25)]

/-- Absolute value on ℚ, written out. -/
def ratAbs (q : ℚ) : ℚ := if q < 0 then -q else q

/-- The exact Euclidean distance on the all-collinear C5 map. -/
def distC5 (n m : Node) : ℚ := ratAbs (n.x - m.x)

/-- x-coordinate of a C5 node id. -/
def coordC5 (id : NodeId) : ℚ := ((lookupNode nodesC5 id).map Node.x).getD 0

/-- The exact Euclidean A* heuristic on the all-collinear C5 map. -/
def heurC5 (a b : NodeId) : ℚ := ratAbs (coordC5 a - coordC5 b)

def schC5 : SimpleScheduler := { charging_reservations := [] }

/-- C4 scenario: one available vehicle, two pending orders; routing to the
first order's pickup fails while routing to the second order's pickup
would succeed. -/
def nodeS4 : Node :=
  { id := "S", x := 0, y := 0, node_type := "normal", connections := []
    neighbors := [], occupied_by := some 1, reserved_by := none, reservation_time := 0 }

def nodePP14 : Node :=
  { id := "PP01", x := 3, y := 4, node_type := "pickup", connections := []
    neighbors := [], occupied_by := none, reserved_by := none, reservation_time := 0 }

def nodePP24 : Node :=
  { id := "PP02", x := 0, y := 0, node_type := "pickup", connections := []
    neighbors := [], occupied_by := none, reserved_by := none, reservation_time := 0 }

def nodesC4 : NodeMap :=
  [("S", nodeS4), ("PP01", nodePP14), ("PP02", nodePP24)]

/-- The exact Euclidean distance for the coordinate pairs of the C4 map:
the only pairs consulted are (0,0)-(0,0) with distance 0 and (0,0)-(3,4)
with distance 5 (a 3-4-5 triangle). -/
def euclidC4 (p q : ℚ × ℚ) : ℚ := if p = q then 0 else 5

def agvC4 : EnhancedAGV :=
  { id := 1, current_node := nodeS4, target_node := none, x := 0, y := 0
    moving := false, waiting := false, wait_counter := 0
    battery_system := BatterySystem.init 100 90, is_carrying_cargo := false
    current_order := none, is_at_charging_station := false }

def o1C4 : Order :=
  Order.create ("PP01") ("AP01") .NORMAL { idDraw := "a1", cargoDraw := 0, weightDraw := 50 } 0

def o2C4 : Order :=
  Order.create ("PP02") ("AP01") .NORMAL { idDraw := "a2", cargoDraw := 0, weightDraw := 50 } 0

def tsC4 : TaskScheduler :=
  { order_queue := { OrderQueue.init with pending_orders := [o1C4, o2C4], total_orders := 2 }
    scheduling_strategy := .BALANCED, agv_tasks := [], total_assignments := 0
    failed_assignments := 0, agvs := [agvC4], nodes := nodesC4 }

/-- The routing oracle of the C4 scenario: path planning toward PP01 fails,
toward PP02 succeeds. -/
def sendC4 (_agv_id : AgvId) (target : NodeId) : Bool := target == "PP02"

/-- C1 scenario: a stopped transport vehicle that has picked up and already
delivered (position-triggered in EnhancedAGV._handle_order_progress, which
cleared current_order and the carrying flag at the dropoff node). -/
def nodeAP1 : Node :=
  { id := "AP01", x := 50, y := 0, node_type := "dropoff", connections := []
    neighbors := [], occupied_by := some 1, reserved_by := none, reservation_time := 0 }

def oC1 : Order :=
  ((Order.create ("PP01") ("AP01") .NORMAL
    { idDraw := "c1", cargoDraw := 0, weightDraw := 50 } 0).assign_to_agv 1 1).start_execution 2

def tC1 : Task :=
  { Task.create .TRANSPORT 1 ("PP01") (some oC1) 1 with
      picked_up := true, is_started := true, start_time := some 2 }

def agvC1 : EnhancedAGV :=
  { id := 1, current_node := nodeAP1, target_node := none, x := 50, y := 0
    moving := false, waiting := false, wait_counter := 0
    battery_system := BatterySystem.init 100 80, is_carrying_cargo := false
    current_order := none, is_at_charging_station := false }

def tsC1 : TaskScheduler :=
  { order_queue := { OrderQueue.init with processing_orders := [(1, oC1)], total_orders := 1 }
    scheduling_strategy := .BALANCED, agv_tasks := [(1, tC1)], total_assignments := 1
    failed_assignments := 0, agvs := [agvC1], nodes := [("AP01", nodeAP1)] }

def sendNever (_agv_id : AgvId) (_target : NodeId) : Bool := false

/-- C7: a one-node map with no connections; the Euclidean heuristic on it
is identically zero, since the only node pair is (A, A). -/
def nodeOneA : Node :=
  { id := "A", x := 5, y := 5, node_type := "normal", connections := []
    neighbors := [], occupied_by := none, reserved_by := none, reservation_time := 0 }

def mapOne : NodeMap := [("A", nodeOneA)]

def heurZero (_a _b : NodeId) : ℚ := 0

/-- C7 witness map: two isolated nodes, B unreachable from A. -/
def nodeIsoB : Node :=
  { id := "B", x := 9, y := 0, node_type := "normal", connections := []
    neighbors := [], occupied_by := none, reserved_by := none, reservation_time := 0 }

def mapAB : NodeMap := [("A", nodeOneA), ("B", nodeIsoB)]

/-!
## Helper lemmas
-/

theorem getA_mem {α : Type} {l : List (NodeId × α)} {k : NodeId} {v : α}
    (h : getA l k = some v) : (k, v) ∈ l := by
  induction l with
  | nil => simp [getA] at h
  | cons p rest ih =>
    obtain ⟨p1, p2⟩ := p
    rw [getA] at h
    by_cases hk : p1 = k
    · rw [if_pos hk] at h
      simp only [Option.some.injEq] at h
      subst hk; subst h
      exact List.mem_cons_self _ _
    · rw [if_neg hk] at h
      exact List.mem_cons_of_mem _ (ih h)

theorem mem_setA {α : Type} {l : List (NodeId × α)} {k : NodeId} {v : α} :
    ∀ p ∈ setA l k v, p ∈ l ∨ p = (k, v) := by
  induction l with
  | nil => intro p hp; simp [setA] at hp; right; exact hp
  | cons q rest ih =>
    intro p hp
    rw [setA] at hp
    by_cases hk : q.1 = k
    · obtain ⟨q1, q2⟩ := q
      simp only at hk
      rw [if_pos hk] at hp
      rcases List.mem_cons.mp hp with h | h
      · right; exact h
      · left; exact List.mem_cons_of_mem _ h
    · obtain ⟨q1, q2⟩ := q
      simp only at hk
      rw [if_neg hk] at hp
      rcases List.mem_cons.mp hp with h | h
      · left; exact h ▸ List.mem_cons_self _ _
      · rcases ih p h with h' | h'
        · left; exact List.mem_cons_of_mem _ h'
        · right; exact h'

theorem getN_setN_self {α : Type} (l : List (AgvId × α)) (k : AgvId) (v : α) :
    getN (setN l k v) k = some v := by
  induction l with
  | nil => simp [setN, getN]
  | cons p rest ih =>
    obtain ⟨p1, p2⟩ := p
    rw [setN]
    by_cases hk : p1 = k
    · rw [if_pos hk, getN, if_pos rfl]
    · rw [if_neg hk, getN, if_neg hk]
      exact ih

theorem popMin_mem {l : List (ℚ × NodeId)} {m : ℚ × NodeId} {rest : List (ℚ × NodeId)}
    (h : popMin l = some (m, rest)) : m ∈ l := by
  induction l generalizing m rest with
  | nil => simp [popMin] at h
  | cons x xs ih =>
    rw [popMin] at h
    rcases hx : popMin xs with _ | ⟨m', rest'⟩
    · rw [hx] at h
      dsimp only at h
      simp only [Option.some.injEq, Prod.mk.injEq] at h
      exact h.1 ▸ List.mem_cons_self _ _
    · rw [hx] at h
      dsimp only at h
      by_cases hle : entryLe x m' = true
      · rw [if_pos hle] at h
        simp only [Option.some.injEq, Prod.mk.injEq] at h
        exact h.1 ▸ List.mem_cons_self _ _
      · rw [if_neg hle] at h
        simp only [Option.some.injEq, Prod.mk.injEq] at h
        exact List.mem_cons_of_mem _ (h.1 ▸ ih hx)

theorem popMin_rest_subset {l : List (ℚ × NodeId)} {m : ℚ × NodeId}
    {rest : List (ℚ × NodeId)} (h : popMin l = some (m, rest)) : ∀ x ∈ rest, x ∈ l := by
  induction l generalizing m rest with
  | nil => simp [popMin] at h
  | cons x xs ih =>
    rw [popMin] at h
    rcases hx : popMin xs with _ | ⟨m', rest'⟩
    · rw [hx] at h
      dsimp only at h
      simp only [Option.some.injEq, Prod.mk.injEq] at h
      intro y hy
      rw [← h.2] at hy
      simp at hy
    · rw [hx] at h
      dsimp only at h
      by_cases hle : entryLe x m' = true
      · rw [if_pos hle] at h
        simp only [Option.some.injEq, Prod.mk.injEq] at h
        intro y hy
        exact List.mem_cons_of_mem _ (h.2 ▸ hy)
      · rw [if_neg hle] at h
        simp only [Option.some.injEq, Prod.mk.injEq] at h
        intro y hy
        rw [← h.2] at hy
        rcases List.mem_cons.mp hy with h' | h'
        · exact h' ▸ List.mem_cons_self _ _
        · exact List.mem_cons_of_mem _ (ih hx y h')

/-- A node with no outgoing connections reaches only itself. -/
theorem not_reachable_of_isolated {nodes : NodeMap} {a b : NodeId} (hne : a ≠ b)
    (h : ∀ n, lookupNode nodes a = some n → n.connections = []) :
    ¬ Reachable nodes a b := by
  intro hr
  rcases (Relation.ReflTransGen.cases_head hr) with heq | ⟨c, hstep, _⟩
  · exact hne heq
  · obtain ⟨n, hn, hc, _⟩ := hstep
    rw [h n hn] at hc
    simp at hc

theorem relaxNeighbor_inv {nodes : NodeMap} (agvs : Option (List AgvRef))
    {start_id : NodeId} {cur : Node} {current_id : NodeId}
    (hcur : lookupNode nodes current_id = some cur)
    (hre : Reachable nodes start_id current_id)
    (st : DijkstraState) (hprev : PrevReach nodes start_id st.2.1)
    (hheap : HeapReach nodes start_id st.2.2)
    (neighbor_id : NodeId) (hconn : neighbor_id ∈ cur.connections) :
    PrevReach nodes start_id
        (relaxNeighbor nodes agvs start_id cur current_id st neighbor_id).2.1 ∧
      HeapReach nodes start_id
        (relaxNeighbor nodes agvs start_id cur current_id st neighbor_id).2.2 := by
  obtain ⟨dists, previous, heap⟩ := st
  rw [relaxNeighbor]
  rcases hnb : lookupNode nodes neighbor_id with _ | nb
  · exact ⟨hprev, hheap⟩
  · dsimp only
    rcases hdc : distLookup dists current_id with _ | dcur
    · exact ⟨hprev, hheap⟩
    · dsimp only
      by_cases hlt : optLt (some (dcur + calculateCost cur nb agvs start_id))
          (distLookup dists neighbor_id) = true
      · rw [if_pos hlt]
        have hreach_nb : Reachable nodes start_id neighbor_id := by
          refine Relation.ReflTransGen.tail hre ⟨cur, hcur, hconn, ?_⟩
          rw [hnb]; rfl
        refine ⟨?_, ?_⟩
        · intro p hp
          rcases mem_setA p hp with h' | h'
          · exact hprev p h'
          · rw [h']; exact hreach_nb
        · intro p hp
          rcases List.mem_cons.mp hp with h' | h'
          · rw [h']; exact hreach_nb
          · exact hheap p h'
      · rw [if_neg hlt]
        exact ⟨hprev, hheap⟩

theorem relaxFold_inv {nodes : NodeMap} (agvs : Option (List AgvRef))
    {start_id : NodeId} {cur : Node} {current_id : NodeId}
    (hcur : lookupNode nodes current_id = some cur)
    (hre : Reachable nodes start_id current_id) :
    ∀ (conns : List NodeId), (∀ c ∈ conns, c ∈ cur.connections) →
      ∀ (st : DijkstraState), PrevReach nodes start_id st.2.1 →
        HeapReach nodes start_id st.2.2 →
        PrevReach nodes start_id
            (conns.foldl (relaxNeighbor nodes agvs start_id cur current_id) st).2.1 ∧
          HeapReach nodes start_id
            (conns.foldl (relaxNeighbor nodes agvs start_id cur current_id) st).2.2 := by
  intro conns
  induction conns with
  | nil => intro _ st hprev hheap; exact ⟨hprev, hheap⟩
  | cons c cs ih =>
    intro hsub st hprev hheap
    rw [List.foldl_cons]
    have hc := hsub c (List.mem_cons_self _ _)
    have step := relaxNeighbor_inv agvs hcur hre st hprev hheap c hc
    exact ih (fun d hd => hsub d (List.mem_cons_of_mem _ hd)) _ step.1 step.2

theorem dijkstraLoop_prevReach {nodes : NodeMap} {agvs : Option (List AgvRef)}
    {start_id end_id : NodeId} :
    ∀ (fuel : ℕ) (dists : List (NodeId × Option ℚ)) (previous : List (NodeId × NodeId))
      (unvisited : List (ℚ × NodeId)), PrevReach nodes start_id previous →
      HeapReach nodes start_id unvisited →
      PrevReach nodes start_id
        (dijkstraLoop nodes agvs start_id end_id fuel dists previous unvisited) := by
  intro fuel
  induction fuel with
  | zero => intro _ previous _ hprev _; exact hprev
  | succ n ih =>
    intro dists previous unvisited hprev hheap
    rw [dijkstraLoop]
    rcases hpop : popMin unvisited with _ | ⟨⟨current_dist, current_id⟩, rest⟩
    · exact hprev
    · dsimp only
      have hrest : HeapReach nodes start_id rest := by
        intro p hp; exact hheap p (popMin_rest_subset hpop p hp)
      have hcid : Reachable nodes start_id current_id :=
        hheap _ (popMin_mem hpop)
      by_cases hend : current_id = end_id
      · rw [if_pos hend]; exact hprev
      · rw [if_neg hend]
        by_cases hskip : optLt (distLookup dists current_id) (some current_dist) = true
        · rw [if_pos hskip]
          exact ih dists previous rest hprev hrest
        · rw [if_neg hskip]
          rcases hcur : lookupNode nodes current_id with _ | cur
          · exact ih dists previous rest hprev hrest
          · dsimp only
            have hfold := relaxFold_inv agvs hcur hcid cur.connections
              (fun _ h => h) (dists, previous, rest) hprev hrest
            exact ih _ _ _ hfold.1 hfold.2

theorem reconstructPath_no_key {previous : List (NodeId × NodeId)} {start_id end_id : NodeId}
    (h : getA previous end_id = none) : reconstructPath previous start_id end_id = [] := by
  rw [reconstructPath, walkPrevious, h]
  simp

/-- Dijkstra returns the empty path whenever the goal is unreachable along
directed connections (this covers absent endpoints as well). -/
theorem dijkstra_unreachable {fuel : ℕ} {nodes : NodeMap} {start_id end_id : NodeId}
    {agvs : Option (List AgvRef)} (h : ¬ Reachable nodes start_id end_id) :
    dijkstra fuel nodes start_id end_id agvs = [] := by
  rw [dijkstra]
  by_cases hg : start_id ∉ nodeIds nodes ∨ end_id ∉ nodeIds nodes
  · rw [if_pos hg]
  · rw [if_neg hg]
    have hprev : PrevReach nodes start_id
        (dijkstraLoop nodes agvs start_id end_id fuel
          (setA ((nodeIds nodes).map fun id => (id, none)) start_id (some 0)) []
          [(0, start_id)]) := by
      apply dijkstraLoop_prevReach
      · intro p hp; simp at hp
      · intro p hp
        simp only [List.mem_singleton] at hp
        rw [hp]
        exact Relation.ReflTransGen.refl
    apply reconstructPath_no_key
    rcases hk : getA (dijkstraLoop nodes agvs start_id end_id fuel
        (setA ((nodeIds nodes).map fun id => (id, none)) start_id (some 0)) []
        [(0, start_id)]) end_id with _ | v
    · rfl
    · exact absurd (hprev _ (getA_mem hk)) h

/-- Dijkstra with start = end returns the empty path. -/
theorem dijkstra_self (fuel : ℕ) (nodes : NodeMap) (start_id : NodeId)
    (agvs : Option (List AgvRef)) : dijkstra fuel nodes start_id start_id agvs = [] := by
  rw [dijkstra]
  by_cases hg : start_id ∉ nodeIds nodes ∨ start_id ∉ nodeIds nodes
  · rw [if_pos hg]
  · rw [if_neg hg]
    have hloop : dijkstraLoop nodes agvs start_id start_id fuel
        (setA ((nodeIds nodes).map fun id => (id, none)) start_id (some 0)) []
        [(0, start_id)] = [] := by
      cases fuel with
      | zero => rw [dijkstraLoop]
      | succ n =>
        rw [dijkstraLoop]
        have hpop : popMin [((0 : ℚ), start_id)] = some ((0, start_id), []) := by
          rw [popMin, popMin]
        rw [hpop]
        simp
    dsimp only
    rw [hloop]
    apply reconstructPath_no_key
    rfl

theorem aStarRelax_openInv {nodes : NodeMap} (agvs : Option (List AgvRef))
    {start_id : NodeId} (end_id : NodeId) (heuristic : NodeId → NodeId → ℚ)
    {cur : Node} {current_id : NodeId}
    (hcur : lookupNode nodes current_id = some cur)
    (hre : Reachable nodes start_id current_id)
    (st : AStarState) (hopen : HeapReach nodes start_id st.1)
    (neighbor_id : NodeId) (hconn : neighbor_id ∈ cur.connections) :
    HeapReach nodes start_id
      (aStarRelax nodes agvs start_id end_id heuristic cur current_id st neighbor_id).1 := by
  obtain ⟨open_set, came_from, g_score, f_score⟩ := st
  rw [aStarRelax]
  rcases hnb : lookupNode nodes neighbor_id with _ | nb
  · exact hopen
  · dsimp only
    rcases hgc : distLookup g_score current_id with _ | gcur
    · exact hopen
    · dsimp only
      by_cases hlt : optLt (some (gcur + calculateCost cur nb agvs start_id))
          (distLookup g_score neighbor_id) = true
      · rw [if_pos hlt]
        dsimp only
        by_cases hin : ¬isInOpenSet open_set neighbor_id = true
        · rw [if_pos hin]
          intro p hp
          rcases List.mem_cons.mp hp with h' | h'
          · rw [h']
            refine Relation.ReflTransGen.tail hre ⟨cur, hcur, hconn, ?_⟩
            rw [hnb]; rfl
          · exact hopen p h'
        · rw [if_neg hin]
          exact hopen
      · rw [if_neg hlt]
        exact hopen

theorem aStarRelaxFold_openInv {nodes : NodeMap} (agvs : Option (List AgvRef))
    {start_id : NodeId} (end_id : NodeId) (heuristic : NodeId → NodeId → ℚ)
    {cur : Node} {current_id : NodeId}
    (hcur : lookupNode nodes current_id = some cur)
    (hre : Reachable nodes start_id current_id) :
    ∀ (conns : List NodeId), (∀ c ∈ conns, c ∈ cur.connections) →
      ∀ (st : AStarState), HeapReach nodes start_id st.1 →
        HeapReach nodes start_id
          (conns.foldl (aStarRelax nodes agvs start_id end_id heuristic cur current_id) st).1 := by
  intro conns
  induction conns with
  | nil => intro _ st hopen; exact hopen
  | cons c cs ih =>
    intro hsub st hopen
    rw [List.foldl_cons]
    have step := aStarRelax_openInv agvs end_id heuristic hcur hre st hopen c
      (hsub c (List.mem_cons_self _ _))
    exact ih (fun d hd => hsub d (List.mem_cons_of_mem _ hd)) _ step

theorem aStarLoop_unreachable {nodes : NodeMap} {agvs : Option (List AgvRef)}
    {start_id end_id : NodeId} {heuristic : NodeId → NodeId → ℚ}
    (h : ¬ Reachable nodes start_id end_id) :
    ∀ (fuel : ℕ) (st : AStarState), HeapReach nodes start_id st.1 →
      aStarLoop nodes agvs start_id end_id heuristic fuel st = [] := by
  intro fuel
  induction fuel with
  | zero => intro st _; rw [aStarLoop]
  | succ n ih =>
    intro st hopen
    obtain ⟨open_set, came_from, g_score, f_score⟩ := st
    rw [aStarLoop]
    rcases hpop : popMin open_set with _ | ⟨⟨fval, current_id⟩, rest⟩
    · rfl
    · dsimp only
      have hcid : Reachable nodes start_id current_id := hopen _ (popMin_mem hpop)
      have hrest : HeapReach nodes start_id rest := by
        intro p hp; exact hopen p (popMin_rest_subset hpop p hp)
      by_cases hend : current_id = end_id
      · exact absurd (hend ▸ hcid) h
      · rw [if_neg hend]
        rcases hcur : lookupNode nodes current_id with _ | cur
        · exact ih _ hrest
        · dsimp only
          refine ih _ ?_
          exact aStarRelaxFold_openInv agvs end_id heuristic hcur hcid cur.connections
            (fun _ hc => hc) (rest, came_from, g_score, f_score) hrest

/-- A* returns the empty path whenever the goal is unreachable along
directed connections (this covers absent endpoints as well). -/
theorem aStar_unreachable {heuristic : NodeId → NodeId → ℚ} {fuel : ℕ} {nodes : NodeMap}
    {start_id end_id : NodeId} {agvs : Option (List AgvRef)}
    (h : ¬ Reachable nodes start_id end_id) :
    aStar heuristic fuel nodes start_id end_id agvs = [] := by
  rw [aStar]
  by_cases hg : start_id ∉ nodeIds nodes ∨ end_id ∉ nodeIds nodes
  · rw [if_pos hg]
  · rw [if_neg hg]
    apply aStarLoop_unreachable h
    intro p hp
    simp only [List.mem_singleton] at hp
    rw [hp]
    exact Relation.ReflTransGen.refl

/-- A* with start = end on a present node returns the single-node path
[start] — not the empty path (the inline reconstruction lacks
_reconstruct_path's single-node check). -/
theorem aStar_self (heuristic : NodeId → NodeId → ℚ) (fuel : ℕ) (nodes : NodeMap)
    (start_id : NodeId) (agvs : Option (List AgvRef)) (hs : start_id ∈ nodeIds nodes) :
    aStar heuristic (fuel + 1) nodes start_id start_id agvs = [start_id] := by
  rw [aStar]
  have hg : ¬(start_id ∉ nodeIds nodes ∨ start_id ∉ nodeIds nodes) := by
    simp [hs]
  rw [if_neg hg]
  rw [aStarLoop]
  have hpop : popMin [((0 : ℚ), start_id)] = some ((0, start_id), []) := by
    rw [popMin, popMin]
  rw [hpop]
  simp [aStarReconstruct, walkPrevious, getA]

theorem updateWarningStatus_fields (b : BatterySystem) :
    (b.updateWarningStatus).current_charge = b.current_charge ∧
      (b.updateWarningStatus).capacity = b.capacity ∧
      (b.updateWarningStatus).discharge_rate_moving = b.discharge_rate_moving ∧
      (b.updateWarningStatus).discharge_rate_idle = b.discharge_rate_idle ∧
      (b.updateWarningStatus).discharge_rate_carrying = b.discharge_rate_carrying ∧
      (b.updateWarningStatus).charge_rate = b.charge_rate := by
  simp only [BatterySystem.updateWarningStatus]
  refine ⟨?_, ?_, ?_, ?_, ?_, ?_⟩ <;> (repeat' split) <;> rfl

theorem batteryOk_warning {b : BatterySystem} (h : BatteryOk b) :
    BatteryOk (b.updateWarningStatus) ∧ (b.updateWarningStatus).capacity = b.capacity := by
  obtain ⟨f1, f2, f3, f4, f5, f6⟩ := updateWarningStatus_fields b
  rw [BatteryOk] at h ⊢
  rw [f1, f2, f3, f4, f5, f6]
  exact ⟨h, rfl⟩

theorem updateCharging_ok {b : BatterySystem} (h : BatteryOk b) {dt : ℚ} (hdt : 0 < dt) :
    BatteryOk (b.updateCharging dt) ∧ (b.updateCharging dt).capacity = b.capacity := by
  obtain ⟨h0, h1, hm, hi, hc, hr⟩ := h
  rw [BatterySystem.updateCharging]
  by_cases hf : b.current_charge ≥ b.capacity
  · rw [if_pos hf]
    exact ⟨⟨h0, h1, hm, hi, hc, hr⟩, rfl⟩
  · rw [if_neg hf]
    dsimp only
    refine ⟨⟨?_, ?_, hm, hi, hc, hr⟩, rfl⟩
    · exact le_min (le_trans h0 h1) (add_nonneg h0 (mul_nonneg hr hdt.le))
    · exact min_le_left _ _

theorem updateDischarge_ok {b : BatterySystem} (h : BatteryOk b) {dt : ℚ} (hdt : 0 < dt)
    (m c : Bool) :
    BatteryOk (b.updateDischarge dt m c) ∧ (b.updateDischarge dt m c).capacity = b.capacity := by
  obtain ⟨h0, h1, hm, hi, hc, hr⟩ := h
  rw [BatterySystem.updateDischarge]
  by_cases he : b.current_charge ≤ 0
  · rw [if_pos he]
    exact ⟨⟨h0, h1, hm, hi, hc, hr⟩, rfl⟩
  · rw [if_neg he]
    dsimp only
    have hrate : (0 : ℚ) ≤
        (if m = true then
          if c = true then b.discharge_rate_moving + b.discharge_rate_carrying
          else b.discharge_rate_moving
        else b.discharge_rate_idle) := by
      split
      · split
        · exact add_nonneg hm hc
        · exact hm
      · exact hi
    have hcons : (0 : ℚ) ≤
        (if m = true then
          if c = true then b.discharge_rate_moving + b.discharge_rate_carrying
          else b.discharge_rate_moving
        else b.discharge_rate_idle) * dt := mul_nonneg hrate hdt.le
    refine ⟨⟨le_max_left _ _, ?_, hm, hi, hc, hr⟩, rfl⟩
    exact max_le (le_trans h0 h1) (le_trans (by linarith) h1)

theorem battery_update_ok {b : BatterySystem} (h : BatteryOk b) (dt : ℚ) (m c : Bool) :
    BatteryOk (b.update dt m c) ∧ (b.update dt m c).capacity = b.capacity := by
  rw [BatterySystem.update]
  by_cases hdt : dt ≤ 0
  · rw [if_pos hdt]
    exact ⟨h, rfl⟩
  · rw [if_neg hdt]
    dsimp only
    have hdt' : 0 < dt := lt_of_not_ge hdt
    have key : BatteryOk (if b.is_charging = true then b.updateCharging dt
          else b.updateDischarge dt m c) ∧
        (if b.is_charging = true then b.updateCharging dt
          else b.updateDischarge dt m c).capacity = b.capacity := by
      by_cases hch : b.is_charging = true
      · rw [if_pos hch]
        exact updateCharging_ok h hdt'
      · rw [if_neg hch]
        exact updateDischarge_ok h hdt' m c
    have w := batteryOk_warning key.1
    exact ⟨w.1, w.2.trans key.2⟩

theorem chargingStep_eq (dist : Node → Node → ℚ) (sch : SimpleScheduler)
    (agv_current : Node) (best : Option Node × Option ℚ) (node : Node) :
    chargingStep dist sch agv_current best node =
      if optLt (some (chargingScore dist sch agv_current node)) best.2 = true then
        (some node, some (chargingScore dist sch agv_current node))
      else best := rfl

theorem chargingFold_spec (dist : Node → Node → ℚ) (sch : SimpleScheduler)
    (agv_current : Node) :
    ∀ (l : List Node) (b : Node),
      ∃ n, l.foldl (chargingStep dist sch agv_current)
          (some b, some (chargingScore dist sch agv_current b)) =
          (some n, some (chargingScore dist sch agv_current n)) ∧
        (n = b ∨ n ∈ l) ∧
        chargingScore dist sch agv_current n ≤ chargingScore dist sch agv_current b ∧
        ∀ m ∈ l, chargingScore dist sch agv_current n ≤ chargingScore dist sch agv_current m := by
  intro l
  induction l with
  | nil =>
    intro b
    exact ⟨b, rfl, Or.inl rfl, le_refl _, by simp⟩
  | cons x xs ih =>
    intro b
    rw [List.foldl_cons, chargingStep_eq]
    by_cases hlt : optLt (some (chargingScore dist sch agv_current x))
        (some (chargingScore dist sch agv_current b)) = true
    · rw [if_pos hlt]
      have hxb : chargingScore dist sch agv_current x ≤ chargingScore dist sch agv_current b := by
        rw [optLt] at hlt
        simp only [decide_eq_true_eq] at hlt
        exact le_of_lt hlt
      obtain ⟨n, heq, hmem, hle, hall⟩ := ih x
      refine ⟨n, heq, ?_, le_trans hle hxb, ?_⟩
      · rcases hmem with h' | h'
        · exact Or.inr (h' ▸ List.mem_cons_self _ _)
        · exact Or.inr (List.mem_cons_of_mem _ h')
      · intro m hm
        rcases List.mem_cons.mp hm with h' | h'
        · exact h' ▸ hle
        · exact hall m h'
    · rw [if_neg hlt]
      have hbx : chargingScore dist sch agv_current b ≤ chargingScore dist sch agv_current x := by
        rw [optLt] at hlt
        simp only [decide_eq_true_eq] at hlt
        exact le_of_not_lt hlt
      obtain ⟨n, heq, hmem, hle, hall⟩ := ih b
      refine ⟨n, heq, ?_, hle, ?_⟩
      · rcases hmem with h' | h'
        · exact Or.inl h'
        · exact Or.inr (List.mem_cons_of_mem _ h')
      · intro m hm
        rcases List.mem_cons.mp hm with h' | h'
        · exact h' ▸ le_trans hle hbx
        · exact hall m h'

theorem chargingFold_start (dist : Node → Node → ℚ) (sch : SimpleScheduler)
    (agv_current : Node) (x : Node) :
    chargingStep dist sch agv_current (none, none) x =
      (some x, some (chargingScore dist sch agv_current x)) := rfl

theorem can_complete_task_mono {b : BatterySystem} {c1 c2 : ℚ} (est : ℚ) (h : c1 ≤ c2)
    (hcompl : ({ b with current_charge := c1 } : BatterySystem).can_complete_task est = true) :
    ({ b with current_charge := c2 } : BatterySystem).can_complete_task est = true := by
  rw [BatterySystem.can_complete_task] at hcompl ⊢
  rw [BatterySystem.estimate_remaining_time] at hcompl ⊢
  dsimp only at hcompl ⊢
  simp only [eq_self_iff_true, if_true] at hcompl ⊢
  by_cases h1 : c1 ≤ 0
  · rw [if_pos h1] at hcompl
    simp only [decide_eq_true_eq] at hcompl
    by_cases h2 : c2 ≤ 0
    · rw [if_pos h2]
      simp only [decide_eq_true_eq]
      exact hcompl
    · rw [if_neg h2]
      by_cases hR : b.discharge_rate_moving + b.discharge_rate_carrying ≤ 0
      · rw [if_pos hR]
      · rw [if_neg hR]
        simp only [decide_eq_true_eq]
        have hc2 : 0 < c2 := lt_of_not_ge h2
        have hRpos : 0 < b.discharge_rate_moving + b.discharge_rate_carrying :=
          lt_of_not_ge hR
        have : 0 ≤ (c2 / (b.discharge_rate_moving + b.discharge_rate_carrying)) / 60 := by
          positivity
        linarith
  · rw [if_neg h1] at hcompl
    have h2 : ¬ c2 ≤ 0 := fun hc => h1 (le_trans h hc)
    rw [if_neg h2]
    by_cases hR : b.discharge_rate_moving + b.discharge_rate_carrying ≤ 0
    · rw [if_pos hR] at hcompl ⊢
    · rw [if_neg hR] at hcompl ⊢
      simp only [decide_eq_true_eq] at hcompl ⊢
      have hRpos : 0 < b.discharge_rate_moving + b.discharge_rate_carrying := lt_of_not_ge hR
      have hdiv : c1 / (b.discharge_rate_moving + b.discharge_rate_carrying) ≤
          c2 / (b.discharge_rate_moving + b.discharge_rate_carrying) :=
        (div_le_div_iff_of_pos_right hRpos).mpr h
      linarith

/-!
## Claim theorems
-/

/-- C10: for every ChargingStation, remove_agv_from_charge with a vehicle id
that is not in the charging set returns None and leaves both the charging
set and the waiting queue unchanged, even when the queue is non-empty. -/
theorem C10_remove_absent_noop (s : ChargingStation) (agv_id : AgvId)
    (h : agv_id ∉ s.charging_agvs) :
    s.remove_agv_from_charge agv_id = (none, s) := by
  rw [ChargingStation.remove_agv_from_charge, if_neg h]

theorem C10_remove_absent_noop_witness :
    (3 : ℕ) ∉ stationW.charging_agvs ∧ stationW.queue = [5] ∧
      stationW.remove_agv_from_charge 3 = (none, stationW) :=
  ⟨by decide, rfl, C10_remove_absent_noop stationW 3 (by decide)⟩

/-- C3 (amended): the enhanced vehicle's BatterySystem keeps current_charge
within [0, capacity] under any sequence of updates, given the in-range
start and the constructor's non-negative rates; the baseline AGV's raw
battery field is exempted by the counterexample below. -/
theorem C3_battery_charge_bounds (b0 : BatterySystem) (h : BatteryOk b0)
    (ops : List (ℚ × Bool × Bool)) :
    0 ≤ (ops.foldl (fun b op => b.update op.1 op.2.1 op.2.2) b0).current_charge ∧
      (ops.foldl (fun b op => b.update op.1 op.2.1 op.2.2) b0).current_charge ≤
        (ops.foldl (fun b op => b.update op.1 op.2.1 op.2.2) b0).capacity := by
  suffices hs : BatteryOk (ops.foldl (fun b op => b.update op.1 op.2.1 op.2.2) b0) from
    ⟨hs.1, hs.2.1⟩
  induction ops generalizing b0 with
  | nil => exact h
  | cons op rest ih =>
    rw [List.foldl_cons]
    exact ih _ (battery_update_ok h op.1 op.2.1 op.2.2).1

theorem C3_battery_charge_bounds_witness :
    BatteryOk (BatterySystem.init 100 90) ∧
      (0 ≤ (([((1 : ℚ), true, true), (2, false, false)].foldl
          (fun b op => b.update op.1 op.2.1 op.2.2) (BatterySystem.init 100 90))).current_charge ∧
        (([((1 : ℚ), true, true), (2, false, false)].foldl
          (fun b op => b.update op.1 op.2.1 op.2.2) (BatterySystem.init 100 90))).current_charge ≤
          (([((1 : ℚ), true, true), (2, false, false)].foldl
          (fun b op => b.update op.1 op.2.1 op.2.2) (BatterySystem.init 100 90))).capacity) :=
  ⟨by norm_num [BatteryOk, BatterySystem.init],
    C3_battery_charge_bounds (BatterySystem.init 100 90)
      (by norm_num [BatteryOk, BatterySystem.init]) [((1 : ℚ), true, true), (2, false, false)]⟩

/-- C3 counterexample: a baseline vehicle whose battery starts inside the
claimed [0, 100] range (at exactly 0) leaves the range after one idle
update_battery call — AGV.update_battery has no lower clamp. -/
theorem C3_baseline_goes_negative :
    0 ≤ agvB3.battery ∧ agvB3.battery ≤ 100 ∧ (agvB3.update_battery).battery < 0 := by
  norm_num [agvB3, agvB2, AGV.update_battery]

/-- C8: the planner's step cost equals the neighbor-distance map entry
(default 100 if unmapped); with a vehicle list supplied and the neighbor
occupied it is that base times 5, unless the same-origin exemption holds —
some listed vehicle's current-node id equals both the search's start id and
the neighbor id — which forces start id = neighbor id. -/
theorem C8_calculate_cost_characterization (cur nb : Node) (l : List AgvRef)
    (start_id : NodeId) :
    (calculateCost cur nb none start_id = (getA cur.neighbors nb.id).getD 100) ∧
      (nb.occupied_by = none →
        calculateCost cur nb (some l) start_id = (getA cur.neighbors nb.id).getD 100) ∧
      ((∃ r ∈ l, r.current_node_id = start_id ∧ r.current_node_id = nb.id) →
        calculateCost cur nb (some l) start_id = (getA cur.neighbors nb.id).getD 100) ∧
      (nb.occupied_by ≠ none →
        (¬∃ r ∈ l, r.current_node_id = start_id ∧ r.current_node_id = nb.id) →
        calculateCost cur nb (some l) start_id = (getA cur.neighbors nb.id).getD 100 * 5) ∧
      ((∃ r ∈ l, r.current_node_id = start_id ∧ r.current_node_id = nb.id) →
        start_id = nb.id) := by
  have hany : (l.any fun agv =>
      agv.current_node_id = start_id ∧ agv.current_node_id = nb.id) = true ↔
      ∃ r ∈ l, r.current_node_id = start_id ∧ r.current_node_id = nb.id := by
    simp [List.any_eq_true]
  refine ⟨rfl, ?_, ?_, ?_, ?_⟩
  · intro hocc
    rw [calculateCost]
    simp [hocc]
  · intro hex
    rw [calculateCost]
    dsimp only
    by_cases hocc : nb.occupied_by ≠ none
    · rw [if_pos hocc]
      have hown : (l.any fun agv =>
          agv.current_node_id = start_id ∧ agv.current_node_id = nb.id) = true :=
        hany.mpr hex
      rw [if_neg (not_not_intro hown)]
    · rw [if_neg hocc]
  · intro hocc hnex
    rw [calculateCost]
    dsimp only
    rw [if_pos hocc]
    have hown : ¬((l.any fun agv =>
        agv.current_node_id = start_id ∧ agv.current_node_id = nb.id) = true) := by
      rw [hany]; exact hnex
    rw [if_pos hown]
  · rintro ⟨r, _, h1, h2⟩
    rw [← h1, h2]

theorem C8_calculate_cost_characterization_witness :
    calculateCost nodeA2 nodeA2 (some [{ current_node_id := "A" }]) ("A") = 100 ∧
      ("A" : NodeId) = nodeA2.id ∧
      calculateCost nodeA2 nodeB2 (some [{ current_node_id := "A" }]) ("A") = 10 := by
  have h := C8_calculate_cost_characterization nodeA2 nodeA2 [{ current_node_id := "A" }] ("A")
  have hex : ∃ r ∈ [({ current_node_id := "A" } : AgvRef)],
      r.current_node_id = "A" ∧ r.current_node_id = nodeA2.id :=
    ⟨{ current_node_id := "A" }, List.mem_singleton_self _, rfl, rfl⟩
  refine ⟨?_, h.2.2.2.2 hex, ?_⟩
  · rw [h.2.2.1 hex]
    simp [nodeA2, getA]
  · have h2 := C8_calculate_cost_characterization nodeA2 nodeB2 [{ current_node_id := "A" }] ("A")
    have hocc : nodeB2.occupied_by = none := rfl
    rw [h2.2.1 hocc]
    simp [nodeA2, nodeB2, getA]

/-- C9: vehicle scoring is monotone in battery charge — two vehicles
identical except for current_charge never score in the wrong order. -/
theorem C9_score_monotone_in_charge (euclid : ℚ × ℚ → ℚ × ℚ → ℚ) (nodes : NodeMap)
    (order : Order) (a : EnhancedAGV) (c1 c2 : ℚ) (h : c1 ≤ c2) :
    TaskScheduler.calculateAgvScore euclid nodes
        { a with battery_system := { a.battery_system with current_charge := c1 } } order ≤
      TaskScheduler.calculateAgvScore euclid nodes
        { a with battery_system := { a.battery_system with current_charge := c2 } } order := by
  rw [TaskScheduler.calculateAgvScore, TaskScheduler.calculateAgvScore]
  dsimp only
  rcases hp : lookupNode nodes order.pickup_node_id with _ | p <;>
    simp only [hp] <;>
  · split
    next h1 =>
      split
      next h2 => linarith
      next h2 => exact absurd (can_complete_task_mono _ h h1) h2
    next h1 =>
      split
      next h2 => linarith
      next h2 => linarith

theorem C9_score_monotone_in_charge_witness :
    (10 : ℚ) ≤ 50 ∧
      TaskScheduler.calculateAgvScore (fun _ _ => 0) []
          { agvC1 with battery_system := { agvC1.battery_system with current_charge := 10 } } oC1 ≤
        TaskScheduler.calculateAgvScore (fun _ _ => 0) []
          { agvC1 with battery_system := { agvC1.battery_system with current_charge := 50 } } oC1 :=
  ⟨by norm_num, C9_score_monotone_in_charge (fun _ _ => 0) [] oC1 agvC1 10 50 (by norm_num)⟩

/-- C2 (amended): the baseline set_target succeeds exactly when the node is
a one-hop connection, not occupied by another vehicle and not reserved by
another vehicle, while the enhanced set_target performs no reservation
check at all; the occupancy/reservation failures set waiting, but the
not-connected failure returns false without touching the waiting flag. -/
theorem C2_set_target_characterization (a : AGV) (n : Node) (e : EnhancedAGV) (m : Node) :
    ((a.set_target n).1 = true ↔
      n.id ∈ a.current_node.connections ∧
        (n.occupied_by = none ∨ n.occupied_by = some a.id) ∧
        (n.reserved_by = none ∨ n.reserved_by = some a.id)) ∧
      (n.id ∉ a.current_node.connections → a.set_target n = (false, a, n)) ∧
      (n.id ∈ a.current_node.connections →
        ¬(n.occupied_by = none ∨ n.occupied_by = some a.id) →
        a.set_target n = (false, { a with waiting := true }, n)) ∧
      (n.id ∈ a.current_node.connections →
        (n.occupied_by = none ∨ n.occupied_by = some a.id) →
        ¬(n.reserved_by = none ∨ n.reserved_by = some a.id) →
        a.set_target n = (false, { a with waiting := true }, n)) ∧
      ((e.set_target m).1 = true ↔
        m.id ∈ e.current_node.connections ∧
          (m.occupied_by = none ∨ m.occupied_by = some e.id)) ∧
      (m.id ∉ e.current_node.connections → e.set_target m = (false, e, m)) ∧
      (m.id ∈ e.current_node.connections →
        ¬(m.occupied_by = none ∨ m.occupied_by = some e.id) →
        e.set_target m = (false, { e with waiting := true }, m)) := by
  have hocc : ∀ (o : Option AgvId) (i : AgvId),
      (o ≠ none ∧ o ≠ some i) ↔ ¬(o = none ∨ o = some i) := by
    intro o i
    constructor
    · rintro ⟨h1, h2⟩ (h | h) <;> [exact h1 h; exact h2 h]
    · intro hn
      exact ⟨fun h => hn (Or.inl h), fun h => hn (Or.inr h)⟩
  refine ⟨?_, ?_, ?_, ?_, ?_, ?_, ?_⟩
  · rw [AGV.set_target]
    by_cases hc : n.id ∉ a.current_node.connections
    · rw [if_pos hc]
      simp only [Bool.false_eq_true, false_iff]
      rintro ⟨hmem, _⟩
      exact hc hmem
    · rw [if_neg hc]
      push_neg at hc
      by_cases ho : n.occupied_by ≠ none ∧ n.occupied_by ≠ some a.id
      · rw [if_pos ho]
        simp only [Bool.false_eq_true, false_iff]
        rintro ⟨_, hfree, _⟩
        exact (hocc _ _).mp ho hfree
      · rw [if_neg ho]
        by_cases hr : n.reserved_by ≠ none ∧ n.reserved_by ≠ some a.id
        · rw [if_pos hr]
          simp only [Bool.false_eq_true, false_iff]
          rintro ⟨_, _, hres⟩
          exact (hocc _ _).mp hr hres
        · rw [if_neg hr]
          simp only [true_iff]
          refine ⟨hc, ?_, ?_⟩
          · by_contra hdis
            exact ho ((hocc _ _).mpr hdis)
          · by_contra hdis
            exact hr ((hocc _ _).mpr hdis)
  · intro hc
    rw [AGV.set_target, if_pos hc]
  · intro hc hofail
    rw [AGV.set_target, if_neg (not_not_intro hc), if_pos ((hocc _ _).mpr hofail)]
  · intro hc hofree hrfail
    rw [AGV.set_target, if_neg (not_not_intro hc),
      if_neg (fun hcontra => (hocc _ _).mp hcontra hofree),
      if_pos ((hocc _ _).mpr hrfail)]
  · rw [EnhancedAGV.set_target]
    by_cases hc : m.id ∉ e.current_node.connections
    · rw [if_pos hc]
      simp only [Bool.false_eq_true, false_iff]
      rintro ⟨hmem, _⟩
      exact hc hmem
    · rw [if_neg hc]
      push_neg at hc
      by_cases ho : m.occupied_by ≠ none ∧ m.occupied_by ≠ some e.id
      · rw [if_pos ho]
        simp only [Bool.false_eq_true, false_iff]
        rintro ⟨_, hfree⟩
        exact (hocc _ _).mp ho hfree
      · rw [if_neg ho]
        simp only [true_iff]
        refine ⟨hc, ?_⟩
        by_contra hdis
        exact ho ((hocc _ _).mpr hdis)
  · intro hc
    rw [EnhancedAGV.set_target, if_pos hc]
  · intro hc hofail
    rw [EnhancedAGV.set_target, if_neg (not_not_intro hc), if_pos ((hocc _ _).mpr hofail)]

theorem C2_set_target_characterization_witness :
    agvB2.set_target nodeC2 = (false, { agvB2 with waiting := true }, nodeC2) ∧
      (agvE2.set_target nodeB2).1 = true := by
  have h := C2_set_target_characterization agvB2 nodeC2 agvE2 nodeB2
  constructor
  · refine h.2.2.1 (by simp [agvB2, nodeA2, nodeC2]) ?_
    rintro (hx | hx) <;> simp [nodeC2, agvB2] at hx
  · refine (h.2.2.2.2.1).mpr ⟨by simp [agvE2, nodeA2, nodeB2], Or.inl rfl⟩

/-- C2 counterexample: the enhanced vehicle's set_target succeeds on a node
reserved by a different vehicle (id 99 ≠ 1) — the claim requires it to
fail and set waiting. -/
theorem C2_enhanced_ignores_reservation :
    nodeB2.reserved_by = some 99 ∧ (99 : ℕ) ≠ agvE2.id ∧ nodeB2.occupied_by = none ∧
      nodeB2.id ∈ agvE2.current_node.connections ∧ (agvE2.set_target nodeB2).1 = true := by
  refine ⟨rfl, by norm_num [agvE2], rfl, by simp [agvE2, nodeA2, nodeB2], ?_⟩
  simp [EnhancedAGV.set_target, agvE2, nodeA2, nodeB2]

/-- C6 (amended): manual_generate_order defaults an omitted pickup/dropoff
to the same uniform pool draw as _generate_order, but an omitted priority
defaults to NORMAL — not the categorical sample — and no coinciding-dropoff
redraw is performed. -/
theorem C6_manual_generate_defaults (gen : OrderGenerator) (d : GenDraws) (now : ℚ)
    (hp : gen.pickup_nodes ≠ []) (hd : gen.dropoff_nodes ≠ [])
    (hne : choiceD gen.pickup_nodes d.pickupDraw ≠ choiceD gen.dropoff_nodes d.dropoffDraw) :
    ∃ o, (gen.generateOrder d now).1 = some o ∧
      (gen.manualGenerateOrder none none none d now).1.pickup_node_id = o.pickup_node_id ∧
      (gen.manualGenerateOrder none none none d now).1.dropoff_node_id = o.dropoff_node_id ∧
      (gen.manualGenerateOrder none none none d now).1.priority = OrderPriority.NORMAL ∧
      o.priority = priorityFromDraw d.priorityDraw := by
  rw [OrderGenerator.generateOrder, OrderGenerator.manualGenerateOrder]
  rw [if_neg (by rintro (h | h) <;> [exact hp h; exact hd h])]
  dsimp only
  rw [if_neg (fun hcon => hne hcon.1)]
  exact ⟨_, rfl, rfl, rfl, rfl, rfl⟩

theorem C6_manual_generate_defaults_witness :
    genC6w.pickup_nodes ≠ [] ∧ genC6w.dropoff_nodes ≠ [] ∧
      choiceD genC6w.pickup_nodes drawsC6w.pickupDraw ≠
        choiceD genC6w.dropoff_nodes drawsC6w.dropoffDraw ∧
      ∃ o, (genC6w.generateOrder drawsC6w 0).1 = some o ∧
        (genC6w.manualGenerateOrder none none none drawsC6w 0).1.pickup_node_id =
          o.pickup_node_id ∧
        (genC6w.manualGenerateOrder none none none drawsC6w 0).1.dropoff_node_id =
          o.dropoff_node_id ∧
        (genC6w.manualGenerateOrder none none none drawsC6w 0).1.priority =
          OrderPriority.NORMAL ∧
        o.priority = priorityFromDraw drawsC6w.priorityDraw := by
  refine ⟨by simp [genC6w], by simp [genC6w], by simp [genC6w, drawsC6w, choiceD], ?_⟩
  exact C6_manual_generate_defaults genC6w drawsC6w 0 (by simp [genC6w]) (by simp [genC6w])
    (by simp [genC6w, drawsC6w, choiceD])

/-- C6 counterexample: with the same random draws (priority position 75 →
HIGH, coinciding pool choices), the automatic generator redraws the
dropoff and samples priority HIGH, while manual_generate_order with all
arguments omitted keeps the coinciding dropoff and defaults priority to
NORMAL — so its defaulting is not identical to _generate_order. -/
theorem C6_manual_differs_from_auto :
    (genC6.generateOrder drawsC6 0).1 =
        some (Order.create ("N1") ("N2") .HIGH drawsC6.orderDraws 0) ∧
      (genC6.manualGenerateOrder none none none drawsC6 0).1 =
        Order.create ("N1") ("N1") .NORMAL drawsC6.orderDraws 0 ∧
      OrderPriority.HIGH ≠ OrderPriority.NORMAL ∧ ("N2" : NodeId) ≠ "N1" := by
  refine ⟨?_, ?_, by decide, by decide⟩
  · simp [OrderGenerator.generateOrder, genC6, drawsC6, choiceD, priorityFromDraw,
      Order.create, List.getD, cargoTypes, Order.calculateDeadline, List.erase]
    norm_num
  · simp [OrderGenerator.manualGenerateOrder, genC6, drawsC6, choiceD, Order.create,
      List.getD, cargoTypes, Order.calculateDeadline]

/-- C5 (amended): the charging node chosen by _find_best_charging_node is a
charging node minimizing straight-line Euclidean distance + 50×(reservation
count, +2 if an occupant is present) over all charging nodes — the distance
term is the Euclidean distance (pinned by EuclidDistOn), not a planned path
length. -/
theorem C5_best_charging_node_minimizes (dist : Node → Node → ℚ) (sch : SimpleScheduler)
    (agv_current : Node) (nodes : NodeMap) (n : Node)
    (_hd : EuclidDistOn dist agv_current
      ((nodes.map Prod.snd).filter fun m => m.node_type = "charging"))
    (hres : findBestChargingNode dist sch agv_current nodes = some n) :
    n ∈ (nodes.map Prod.snd).filter (fun m => m.node_type = "charging") ∧
      ∀ m ∈ (nodes.map Prod.snd).filter (fun m => m.node_type = "charging"),
        chargingScore dist sch agv_current n ≤ chargingScore dist sch agv_current m := by
  rw [findBestChargingNode] at hres
  rcases hcase : (nodes.map Prod.snd).filter (fun m => m.node_type = "charging")
    with _ | ⟨x, xs⟩
  · rw [hcase] at hres
    simp at hres
  · rw [hcase] at hres
    rw [if_neg (by simp)] at hres
    rw [List.foldl_cons, chargingFold_start] at hres
    obtain ⟨n', heq, hmem, hle, hall⟩ := chargingFold_spec dist sch agv_current xs x
    rw [heq] at hres
    simp only [Option.some.injEq] at hres
    subst hres
    constructor
    · rw [hcase]
      rcases hmem with h' | h'
      · exact h' ▸ List.mem_cons_self _ _
      · exact List.mem_cons_of_mem _ h'
    · rw [hcase]
      intro m hm
      rcases List.mem_cons.mp hm with h' | h'
      · exact h' ▸ hle
      · exact hall m h'

theorem C5_best_charging_node_minimizes_witness :
    EuclidDistOn distC5 nodeA5
        ((nodesC5.map Prod.snd).filter fun m => m.node_type = "charging") ∧
      findBestChargingNode distC5 schC5 nodeA5 nodesC5 = some nodeCP15 ∧
      (nodeCP15 ∈ (nodesC5.map Prod.snd).filter (fun m => m.node_type = "charging") ∧
        ∀ m ∈ (nodesC5.map Prod.snd).filter (fun m => m.node_type = "charging"),
          chargingScore distC5 schC5 nodeA5 nodeCP15 ≤ chargingScore distC5 schC5 nodeA5 m) := by
  have hd : EuclidDistOn distC5 nodeA5
      ((nodesC5.map Prod.snd).filter fun m => m.node_type = "charging") := by
    intro m hm
    simp only [nodesC5, nodeA5, nodeN15, nodeCP15, nodeCP25, List.map_cons, List.map_nil] at hm
    simp only [List.filter] at hm
    simp at hm
    rcases hm with h' | h' <;> subst h' <;> norm_num [distC5, ratAbs, nodeA5]
  have hres : findBestChargingNode distC5 schC5 nodeA5 nodesC5 = some nodeCP15 := by
    simp [findBestChargingNode, chargingStep, distC5, ratAbs, schC5, nodeA5, nodesC5,
      nodeN15, nodeCP15, nodeCP25, getA, optLt]
    norm_num
  exact ⟨hd, hres, C5_best_charging_node_minimizes distC5 schC5 nodeA5 nodesC5 nodeCP15 hd hres⟩

set_option maxHeartbeats 1600000 in
/-- C5 counterexample: on an all-collinear map (exact rational Euclidean
distances), the scheduler picks CP1 (Euclidean-near, two hops away) even
though CP2 (directly connected) has the smaller pathLength + 50×reservation
score — so the chosen node does not minimize the claimed path-length-based
objective. The conjuncts also certify that distC5 and heurC5 are the true
Euclidean distance/heuristic on this map. -/
theorem C5_chooses_euclid_not_pathlength :
    findBestChargingNode distC5 schC5 nodeA5 nodesC5 = some nodeCP15 ∧
      EuclidDistOn distC5 nodeA5
        ((nodesC5.map Prod.snd).filter fun m => m.node_type = "charging") ∧
      (∀ p ∈ nodesC5, ∀ q ∈ nodesC5, 0 ≤ heurC5 p.1 q.1 ∧
        heurC5 p.1 q.1 ^ 2 = (p.2.x - q.2.x) ^ 2 + (p.2.y - q.2.y) ^ 2) ∧
      (aStar heurC5 6 nodesC5 ("A") ("CP2") (some [{ current_node_id := "A" }])).length +
          50 * 0 <
        (aStar heurC5 6 nodesC5 ("A") ("CP1") (some [{ current_node_id := "A" }])).length +
          50 * 0 := by
  refine ⟨?_, ?_, ?_, ?_⟩
  · simp [findBestChargingNode, chargingStep, distC5, ratAbs, schC5, nodeA5, nodesC5,
      nodeN15, nodeCP15, nodeCP25, getA, optLt]
    norm_num
  · intro m hm
    simp only [nodesC5, nodeA5, nodeN15, nodeCP15, nodeCP25, List.map_cons, List.map_nil] at hm
    simp only [List.filter] at hm
    simp at hm
    rcases hm with h' | h' <;> subst h' <;> norm_num [distC5, ratAbs, nodeA5]
  · intro p hp q hq
    simp only [nodesC5, List.mem_cons, List.not_mem_nil, or_false] at hp hq
    rcases hp with h | h | h | h <;> rcases hq with g | g | g | g <;> subst h <;> subst g <;>
      simp [heurC5, coordC5, ratAbs, lookupNode, getA, nodesC5, nodeA5, nodeN15,
        nodeCP15, nodeCP25] <;> norm_num
  · have h1 : (aStar heurC5 6 nodesC5 ("A") ("CP1")
        (some [{ current_node_id := "A" }])).length = 3 := by
      simp [aStar, aStarLoop, aStarRelax, nodesC5, nodeA5, nodeN15, nodeCP15, nodeCP25,
        nodeIds, heurC5, coordC5, ratAbs, popMin, entryLe, strLt, charListLt, lookupNode,
        getA, setA, distLookup, aStarReconstruct, walkPrevious, calculateCost, isInOpenSet,
        optLt]
      repeat
        first
        | rfl
        | (norm_num [aStarLoop, aStarRelax, lookupNode, getA, setA, nodesC5, nodeA5,
            nodeN15, nodeCP15, nodeCP25, popMin, entryLe, strLt, charListLt, distLookup,
            aStarReconstruct, walkPrevious, calculateCost, isInOpenSet, optLt, heurC5,
            coordC5, ratAbs]
           simp [aStarLoop, aStarRelax, lookupNode, getA, setA, nodesC5, nodeA5, nodeN15,
            nodeCP15, nodeCP25, popMin, entryLe, strLt, charListLt, distLookup,
            aStarReconstruct, walkPrevious, calculateCost, isInOpenSet, optLt, heurC5,
            coordC5, ratAbs])
    have h2 : (aStar heurC5 6 nodesC5 ("A") ("CP2")
        (some [{ current_node_id := "A" }])).length = 2 := by
      simp [aStar, aStarLoop, aStarRelax, nodesC5, nodeA5, nodeN15, nodeCP15, nodeCP25,
        nodeIds, heurC5, coordC5, ratAbs, popMin, entryLe, strLt, charListLt, lookupNode,
        getA, setA, distLookup, aStarReconstruct, walkPrevious, calculateCost, isInOpenSet,
        optLt]
      repeat
        first
        | rfl
        | (norm_num [aStarLoop, aStarRelax, lookupNode, getA, setA, nodesC5, nodeA5,
            nodeN15, nodeCP15, nodeCP25, popMin, entryLe, strLt, charListLt, distLookup,
            aStarReconstruct, walkPrevious, calculateCost, isInOpenSet, optLt, heurC5,
            coordC5, ratAbs]
           simp [aStarLoop, aStarRelax, lookupNode, getA, setA, nodesC5, nodeA5, nodeN15,
            nodeCP15, nodeCP25, popMin, entryLe, strLt, charListLt, distLookup,
            aStarReconstruct, walkPrevious, calculateCost, isInOpenSet, optLt, heurC5,
            coordC5, ratAbs])
    rw [h1, h2]
    norm_num

/-- C7 (amended): plan_path raises exactly on an unrecognized
(case-insensitive) algorithm name; for a recognized name it never raises,
and absent endpoints or an unreachable goal yield the empty path; start =
end yields the empty path under Dijkstra but the one-node path [start]
under A* (whose inline reconstruction lacks the single-node check). -/
theorem C7_plan_path_characterization (algorithm : String)
    (heuristic : NodeId → NodeId → ℚ) (fuel : ℕ) (nodes : NodeMap)
    (start_id end_id : NodeId) (agvs : Option (List AgvRef)) :
    (pyLower algorithm ≠ "dijkstra" → pyLower algorithm ≠ "a_star" →
      pyLower algorithm ≠ "astar" →
      planPath algorithm heuristic fuel nodes start_id end_id agvs =
        .error .unsupportedAlgorithm) ∧
      (pyLower algorithm = "dijkstra" ∨ pyLower algorithm = "a_star" ∨
          pyLower algorithm = "astar" →
        ∃ r, planPath algorithm heuristic fuel nodes start_id end_id agvs = .ok r) ∧
      (pyLower algorithm = "dijkstra" →
        start_id ∉ nodeIds nodes ∨ end_id ∉ nodeIds nodes →
        planPath algorithm heuristic fuel nodes start_id end_id agvs = .ok []) ∧
      (pyLower algorithm = "a_star" ∨ pyLower algorithm = "astar" →
        start_id ∉ nodeIds nodes ∨ end_id ∉ nodeIds nodes →
        planPath algorithm heuristic fuel nodes start_id end_id agvs = .ok []) ∧
      (pyLower algorithm = "dijkstra" → ¬ Reachable nodes start_id end_id →
        planPath algorithm heuristic fuel nodes start_id end_id agvs = .ok []) ∧
      (pyLower algorithm = "a_star" ∨ pyLower algorithm = "astar" →
        ¬ Reachable nodes start_id end_id →
        planPath algorithm heuristic fuel nodes start_id end_id agvs = .ok []) ∧
      (pyLower algorithm = "dijkstra" → start_id = end_id →
        planPath algorithm heuristic fuel nodes start_id end_id agvs = .ok []) ∧
      (pyLower algorithm = "a_star" ∨ pyLower algorithm = "astar" →
        start_id = end_id → start_id ∈ nodeIds nodes →
        planPath algorithm heuristic (fuel + 1) nodes start_id end_id agvs =
          .ok [start_id]) := by
  have hdij : pyLower algorithm = "dijkstra" →
      ∀ f, planPath algorithm heuristic f nodes start_id end_id agvs =
        .ok (dijkstra f nodes start_id end_id agvs) := by
    intro hname f
    rw [planPath, if_pos hname]
  have hast : pyLower algorithm = "a_star" ∨ pyLower algorithm = "astar" →
      ∀ f, planPath algorithm heuristic f nodes start_id end_id agvs =
        .ok (aStar heuristic f nodes start_id end_id agvs) := by
    intro hname f
    have hnd : pyLower algorithm ≠ "dijkstra" := by
      rcases hname with h | h <;> rw [h] <;> decide
    rw [planPath, if_neg hnd, if_pos hname]
  refine ⟨?_, ?_, ?_, ?_, ?_, ?_, ?_, ?_⟩
  · intro h1 h2 h3
    rw [planPath, if_neg h1, if_neg (by rintro (h | h) <;> [exact h2 h; exact h3 h])]
  · rintro (h | h | h)
    · exact ⟨_, hdij h fuel⟩
    · exact ⟨_, hast (Or.inl h) fuel⟩
    · exact ⟨_, hast (Or.inr h) fuel⟩
  · intro hname habs
    rw [hdij hname fuel, dijkstra, if_pos habs]
  · intro hname habs
    rw [hast hname fuel, aStar, if_pos habs]
  · intro hname hunreach
    rw [hdij hname fuel, dijkstra_unreachable hunreach]
  · intro hname hunreach
    rw [hast hname fuel, aStar_unreachable hunreach]
  · intro hname heq
    rw [hdij hname fuel]
    rw [heq, dijkstra_self]
  · intro hname heq hmem
    rw [hast hname (fuel + 1)]
    rw [heq] at hmem ⊢
    rw [aStar_self heuristic fuel nodes end_id agvs hmem]

theorem C7_plan_path_characterization_witness :
    planPath ("bfs") heurZero 1 mapAB ("A") ("B") none =
        .error .unsupportedAlgorithm ∧
      planPath ("Dijkstra") heurZero 1 mapAB ("A") ("B") none = .ok [] ∧
      planPath ("a_star") heurZero 1 mapAB ("A") ("B") none = .ok [] ∧
      planPath ("dijkstra") heurZero 1 mapAB ("A") ("A") none = .ok [] := by
  have hb : pyLower ("bfs") = "bfs" := by simp [pyLower, pyLowerChar, Char.isUpper]
  have hdij : pyLower ("Dijkstra") = "dijkstra" := by simp [pyLower, pyLowerChar, Char.isUpper]
  have hda : pyLower ("dijkstra") = "dijkstra" := by simp [pyLower, pyLowerChar, Char.isUpper]
  have has : pyLower ("a_star") = "a_star" := by simp [pyLower, pyLowerChar, Char.isUpper]
  have hunreach : ¬ Reachable mapAB ("A") ("B") := by
    apply not_reachable_of_isolated (by decide)
    intro n hn
    simp [lookupNode, getA, mapAB] at hn
    rw [← hn]
    rfl
  have h1 := C7_plan_path_characterization ("bfs") heurZero 1 mapAB ("A") ("B") none
  have h2 := C7_plan_path_characterization ("Dijkstra") heurZero 1 mapAB ("A") ("B") none
  have h3 := C7_plan_path_characterization ("a_star") heurZero 1 mapAB ("A") ("B") none
  have h4 := C7_plan_path_characterization ("dijkstra") heurZero 1 mapAB ("A") ("A") none
  refine ⟨?_, ?_, ?_, ?_⟩
  · exact h1.1 (by rw [hb]; decide) (by rw [hb]; decide) (by rw [hb]; decide)
  · exact h2.2.2.2.2.1 hdij hunreach
  · exact h3.2.2.2.2.2.1 (Or.inl has) hunreach
  · exact h4.2.2.2.2.2.2.1 hda rfl

/-- C7 counterexample: for a recognized A* name with start = end on a
present node, plan_path returns the one-node path [start], not the empty
path the claim requires (on this one-node map the Euclidean heuristic is
identically zero, so heurZero is exact). -/
theorem C7_astar_start_eq_end_nonempty :
    planPath ("a_star") heurZero 1 mapOne ("A") ("A") none = .ok (["A"]) ∧
      (["A"] : List NodeId) ≠ ([] : List NodeId) := by
  constructor
  · simp [planPath, pyLower, pyLowerChar, Char.isUpper, aStar, aStarLoop, mapOne, nodeOneA,
      nodeIds, heurZero, popMin, entryLe, lookupNode, getA, setA, distLookup,
      aStarReconstruct, walkPrevious]
  · decide

/-- C4 (amended): in the assignment pass, when routing the selected vehicle
toward the order's pickup fails, the failed-assignment counter is
incremented but the vehicle is removed from the available pool anyway (it
is not matched with any further order in the pass, and the dequeued order
is dropped); only on routing success are the task registered, the order
advanced to in-progress, and the assignment counted. -/
theorem C4_failed_routing_still_removes_vehicle (sendOk : AgvId → NodeId → Bool)
    (euclid : ℚ × ℚ → ℚ × ℚ → ℚ) (now : ℚ) (fuel : ℕ)
    (available_agvs : List EnhancedAGV) (ts : TaskScheduler) (order : Order)
    (q' : OrderQueue) (best_agv : EnhancedAGV)
    (h1 : available_agvs ≠ []) (h2 : ts.order_queue.pending_orders ≠ [])
    (hr : ts.order_queue.getNextOrder ts.scheduling_strategy = (some order, q'))
    (hb : TaskScheduler.selectBestAgv euclid ts.nodes order available_agvs = some best_agv) :
    (sendOk best_agv.id order.pickup_node_id = false →
      TaskScheduler.assignTransportTask sendOk now { ts with order_queue := q' }
          best_agv order =
        (false, { ts with order_queue := q',
                          failed_assignments := ts.failed_assignments + 1 }) ∧
      TaskScheduler.processAssignLoop sendOk euclid now (fuel + 1) available_agvs ts =
        TaskScheduler.processAssignLoop sendOk euclid now fuel
          (available_agvs.erase best_agv)
          { ts with order_queue := q',
                    failed_assignments := ts.failed_assignments + 1 }) ∧
      (sendOk best_agv.id order.pickup_node_id = true →
        TaskScheduler.processAssignLoop sendOk euclid now (fuel + 1) available_agvs ts =
          TaskScheduler.processAssignLoop sendOk euclid now fuel
            (available_agvs.erase best_agv)
            (TaskScheduler.assignTransportTask sendOk now { ts with order_queue := q' }
              best_agv order).2 ∧
        (TaskScheduler.assignTransportTask sendOk now { ts with order_queue := q' }
            best_agv order).2.total_assignments = ts.total_assignments + 1 ∧
        (∃ t, getN (TaskScheduler.assignTransportTask sendOk now
              { ts with order_queue := q' } best_agv order).2.agv_tasks best_agv.id =
            some t ∧ t.task_type = .TRANSPORT ∧ t.is_started = true) ∧
        (∃ o2, getN (TaskScheduler.assignTransportTask sendOk now
              { ts with order_queue := q' } best_agv order).2.order_queue.processing_orders
            best_agv.id = some o2 ∧ o2.status = .IN_PROGRESS)) := by
  have hloop : TaskScheduler.processAssignLoop sendOk euclid now (fuel + 1)
      available_agvs ts =
      TaskScheduler.processAssignLoop sendOk euclid now fuel
        (available_agvs.erase best_agv)
        (TaskScheduler.assignTransportTask sendOk now { ts with order_queue := q' }
          best_agv order).2 := by
    rw [TaskScheduler.processAssignLoop]
    rw [if_neg (by rintro (h | h) <;> [exact h1 h; exact h2 h])]
    dsimp only
    rw [hr]
    dsimp only
    rw [hb]
  constructor
  · intro hf
    have hassign : TaskScheduler.assignTransportTask sendOk now
        { ts with order_queue := q' } best_agv order =
        (false, { ts with order_queue := q',
                          failed_assignments := ts.failed_assignments + 1 }) := by
      rw [TaskScheduler.assignTransportTask]
      dsimp only
      rw [hf]
      rfl
    refine ⟨hassign, ?_⟩
    rw [hloop, hassign]
  · intro hs
    have hassign : TaskScheduler.assignTransportTask sendOk now
        { ts with order_queue := q' } best_agv order =
        (true, { ts with
          order_queue := { q' with
            processing_orders := setN q'.processing_orders best_agv.id
              ((order.assign_to_agv best_agv.id now).start_execution now)
            waiting_times := q'.waiting_times ++ [now - order.create_time] }
          agv_tasks := setN ts.agv_tasks best_agv.id
            { Task.create .TRANSPORT best_agv.id order.pickup_node_id (some order) now with
                order := some ((order.assign_to_agv best_agv.id now).start_execution now)
                is_started := true, start_time := some now }
          agvs := ts.agvs.map fun a => if a.id = best_agv.id then
            a.assign_order ((order.assign_to_agv best_agv.id now).start_execution now) else a
          total_assignments := ts.total_assignments + 1 }) := by
      rw [TaskScheduler.assignTransportTask]
      dsimp only
      rw [hs]
      rfl
    refine ⟨hloop, ?_, ?_, ?_⟩
    · rw [hassign]
    · rw [hassign]
      dsimp only
      exact ⟨_, getN_setN_self _ _ _, rfl, rfl⟩
    · rw [hassign]
      dsimp only
      exact ⟨_, getN_setN_self _ _ _, rfl⟩

theorem C4_failed_routing_still_removes_vehicle_witness :
    ([agvC4] : List EnhancedAGV) ≠ [] ∧ tsC4.order_queue.pending_orders ≠ [] ∧
      tsC4.order_queue.getNextOrder tsC4.scheduling_strategy =
        (some o1C4, { OrderQueue.init with pending_orders := [o2C4], total_orders := 2 }) ∧
      TaskScheduler.selectBestAgv euclidC4 tsC4.nodes o1C4 [agvC4] = some agvC4 ∧
      sendC4 agvC4.id o1C4.pickup_node_id = false ∧
      TaskScheduler.assignTransportTask sendC4 0
          { tsC4 with order_queue :=
            { OrderQueue.init with pending_orders := [o2C4], total_orders := 2 } }
          agvC4 o1C4 =
        (false, { tsC4 with
          order_queue := { OrderQueue.init with pending_orders := [o2C4], total_orders := 2 }
          failed_assignments := tsC4.failed_assignments + 1 }) := by
  have h1 : ([agvC4] : List EnhancedAGV) ≠ [] := by simp
  have h2 : tsC4.order_queue.pending_orders ≠ [] := by simp [tsC4, OrderQueue.init]
  have hr : tsC4.order_queue.getNextOrder tsC4.scheduling_strategy =
      (some o1C4, { OrderQueue.init with pending_orders := [o2C4], total_orders := 2 }) := by
    simp [tsC4, OrderQueue.getNextOrder, OrderQueue.init]
  have hb : TaskScheduler.selectBestAgv euclidC4 tsC4.nodes o1C4 [agvC4] = some agvC4 := by
    simp [TaskScheduler.selectBestAgv, TaskScheduler.calculateAgvScore]
  have hf : sendC4 agvC4.id o1C4.pickup_node_id = false := by
    simp [sendC4, agvC4, o1C4, Order.create]
  have hmain := C4_failed_routing_still_removes_vehicle sendC4 euclidC4 0 0 [agvC4] tsC4
    o1C4 { OrderQueue.init with pending_orders := [o2C4], total_orders := 2 } agvC4
    h1 h2 hr hb
  exact ⟨h1, h2, hr, hb, hf, (hmain.1 hf).1⟩

/-- C4 counterexample: one available vehicle and two pending orders; routing
to the first order's pickup fails while the second order's pickup is
routable. The claim says the vehicle is released back to the pool and
remains eligible for the next dequeued order; instead the pass ends with
the vehicle consumed — no assignment is made, the failed counter is 1, and
the routable second order is left pending. -/
theorem C4_failed_routing_consumes_vehicle :
    (TaskScheduler.processTaskAssignments sendC4 euclidC4 0 tsC4).failed_assignments = 1 ∧
      (TaskScheduler.processTaskAssignments sendC4 euclidC4 0 tsC4).total_assignments = 0 ∧
      (TaskScheduler.processTaskAssignments sendC4 euclidC4 0 tsC4).order_queue.pending_orders =
        [o2C4] ∧
      (TaskScheduler.processTaskAssignments sendC4 euclidC4 0 tsC4).agv_tasks = [] ∧
      sendC4 agvC4.id o2C4.pickup_node_id = true := by
  have hstep : TaskScheduler.processTaskAssignments sendC4 euclidC4 0 tsC4 =
      { tsC4 with
        order_queue := { OrderQueue.init with pending_orders := [o2C4], total_orders := 2 }
        failed_assignments := 1 } := by
    rw [TaskScheduler.processTaskAssignments]
    have havail : tsC4.getAvailableAgvs = [agvC4] := by
      simp [TaskScheduler.getAvailableAgvs, tsC4, agvC4, getN,
        BatterySystem.can_move, BatterySystem.init]
    rw [havail]
    dsimp only
    rw [if_neg (by simp)]
    have hlen : tsC4.order_queue.pending_orders.length = 2 := by
      simp [tsC4, OrderQueue.init]
    rw [hlen]
    have h1 : ([agvC4] : List EnhancedAGV) ≠ [] := by simp
    have h2 : tsC4.order_queue.pending_orders ≠ [] := by simp [tsC4, OrderQueue.init]
    have hr : tsC4.order_queue.getNextOrder tsC4.scheduling_strategy =
        (some o1C4, { OrderQueue.init with pending_orders := [o2C4], total_orders := 2 }) := by
      simp [tsC4, OrderQueue.getNextOrder, OrderQueue.init]
    have hb : TaskScheduler.selectBestAgv euclidC4 tsC4.nodes o1C4 [agvC4] = some agvC4 := by
      simp [TaskScheduler.selectBestAgv, TaskScheduler.calculateAgvScore]
    have hf : sendC4 agvC4.id o1C4.pickup_node_id = false := by
      simp [sendC4, agvC4, o1C4, Order.create]
    have hloop : TaskScheduler.processAssignLoop sendC4 euclidC4 0 (1 + 1) [agvC4] tsC4 =
        TaskScheduler.processAssignLoop sendC4 euclidC4 0 1
          (([agvC4] : List EnhancedAGV).erase agvC4)
          (TaskScheduler.assignTransportTask sendC4 0
            { tsC4 with order_queue :=
              { OrderQueue.init with pending_orders := [o2C4], total_orders := 2 } }
            agvC4 o1C4).2 := by
      rw [TaskScheduler.processAssignLoop]
      rw [if_neg (by rintro (h | h) <;> [exact h1 h; exact h2 h])]
      dsimp only
      rw [hr]
      dsimp only
      rw [hb]
    have hassign : TaskScheduler.assignTransportTask sendC4 0
        { tsC4 with order_queue :=
          { OrderQueue.init with pending_orders := [o2C4], total_orders := 2 } }
        agvC4 o1C4 =
        (false, { tsC4 with
          order_queue := { OrderQueue.init with pending_orders := [o2C4], total_orders := 2 }
          failed_assignments := tsC4.failed_assignments + 1 }) := by
      rw [TaskScheduler.assignTransportTask]
      dsimp only
      rw [hf]
      rfl
    rw [show (2 : ℕ) = 1 + 1 from rfl, hloop, hassign]
    dsimp only
    rw [show ([agvC4] : List EnhancedAGV).erase agvC4 = [] from by simp]
    rw [show (1 : ℕ) = 0 + 1 from rfl]
    rw [TaskScheduler.processAssignLoop]
    rw [if_pos (Or.inl rfl)]
    rfl
  rw [hstep]
  refine ⟨rfl, rfl, rfl, rfl, ?_⟩
  simp [sendC4, agvC4, o2C4, Order.create]

/-- C1: evaluation of the completion sweep at the failing input — a stopped
TRANSPORT vehicle with picked_up set whose cargo was already delivered at
the dropoff (EnhancedAGV._handle_order_progress cleared carrying and
current_order on arrival). The call agv.is_task_completed() raises
AttributeError (no vehicle class defines that method), the except clause
collects the task as completed, and the sweep removes the task WITHOUT
completing it or the order: the order stays in processing_orders with
status IN_PROGRESS, the completed bucket stays empty, and the vehicle's
order state is never touched — contradicting the claimed completion path. -/
theorem C1_sweep_drops_task_without_completing :
    TaskScheduler.checkTaskCompletionSafe sendNever 10 tsC1 = { tsC1 with agv_tasks := [] } ∧
      getN (TaskScheduler.checkTaskCompletionSafe sendNever 10 tsC1).agv_tasks 1 = none ∧
      (TaskScheduler.checkTaskCompletionSafe sendNever 10 tsC1).order_queue.processing_orders =
        [(1, oC1)] ∧
      oC1.status = OrderStatus.IN_PROGRESS ∧
      (TaskScheduler.checkTaskCompletionSafe sendNever 10 tsC1).order_queue.completed_orders =
        [] ∧
      tC1.is_completed = false := by
  have hrun : TaskScheduler.checkTaskCompletionSafe sendNever 10 tsC1 =
      { tsC1 with agv_tasks := [] } := by
    rw [TaskScheduler.checkTaskCompletionSafe]
    dsimp only
    have hts : tsC1.agv_tasks = [(1, tC1)] := rfl
    rw [hts, List.foldl_cons, List.foldl_nil]
    have hstep : TaskScheduler.sweepStep sendNever 10 (tsC1, []) (1, tC1) = (tsC1, [1]) := by
      rw [TaskScheduler.sweepStep]
      have hfind : TaskScheduler.findAgvById tsC1.agvs 1 = some agvC1 := by
        simp [TaskScheduler.findAgvById, tsC1, agvC1]
      rw [hfind]
      dsimp only
      rw [if_pos (by refine ⟨rfl, by simp [tC1, Task.create], ?_⟩; simp [agvC1])]
      rw [show tC1.order = some oC1 from rfl]
      dsimp only
      have hnot : ¬(agvC1.current_node.id = oC1.pickup_node_id ∧ ¬tC1.picked_up = true ∧
          ¬agvC1.is_carrying_cargo = true) := by
        rintro ⟨hx, _, _⟩
        simp [agvC1, nodeAP1, oC1, Order.create, Order.assign_to_agv,
          Order.start_execution] at hx
      rw [if_neg hnot]
      rfl
    rw [hstep]
    dsimp only
    rw [List.foldl_cons, List.foldl_nil]
    rfl
  refine ⟨hrun, ?_, ?_, rfl, ?_, rfl⟩ <;> rw [hrun] <;> rfl

end AGVSim
